import Mathlib

/-!
Verification of the cluster configuration model of `fdbserver/DatabaseConfiguration.cpp`.

The development shallowly embeds the source file: byte strings become `String`
(whose underlying representation is a list of characters), the dual raw/mutable
key/value store becomes an explicit pair of a sorted array (list) and an
optional ordered map (association list kept in key order), the typed fields
become a Lean structure, and the fallible operations (policy deserialization
can fail, a null policy dereference is undefined) return `Except`/`Option`.
External collaborators that are not part of the source tree (the policy
objects' textual signatures, the store-engine enumeration, the knob defaults,
the key namespace) are modelled from the specification and marked as such in
their doc comments.
-/

/-! ### Byte-wise string order

`std::map<std::string, ...>` and `std::lower_bound` order keys by the
lexicographic byte-wise `operator<`; we embed that order directly (the
library's own `String` order is not kernel-reducible). -/

/-- Lexicographic code-point comparison of character lists
(`std::string::operator<`). -/
def strLtB : List Char → List Char → Bool
  | [], [] => false
  | [], _ :: _ => true
  | _ :: _, [] => false
  | c :: cs, d :: ds =>
    if c.toNat < d.toNat then true
    else if d.toNat < c.toNat then false
    else strLtB cs ds

/-- `a < b` on byte strings. -/
def strLt (a b : String) : Bool := strLtB a.data b.data

/-- `a <= b` on byte strings, as the negation of the reversed strict order. -/
def strLe (a b : String) : Bool := !(strLt b a)

/-! ### Ordered-map primitives (std::map / sorted VectorRef embedding) -/

/-- Lookup in an association list, first match wins (std::map::find on a
key-ordered map; on the maps built below each key occurs at most once). -/
def mapLookup : List (String × String) → String → Option String
  | [], _ => none
  | p :: t, k => if p.1 = k then some p.2 else mapLookup t k

/-- Order-preserving insert-or-assign (`mc[key] = value` on std::map). -/
def mapInsert (m : List (String × String)) (k v : String) : List (String × String) :=
  match m with
  | [] => [(k, v)]
  | p :: t =>
    if strLt k p.1 then (k, v) :: p :: t
    else if k = p.1 then (k, v) :: t
    else p :: mapInsert t k v

/-- `mc.erase(mc.lower_bound(begin), mc.lower_bound(end))`: on a key-ordered
map this removes exactly the entries whose key lies in `[a, b)`. -/
def eraseRange (a b : String) : List (String × String) → List (String × String)
  | [] => []
  | p :: t =>
    if strLe a p.1 && strLt p.1 b then eraseRange a b t else p :: eraseRange a b t

/-- Copy every raw pair into the mutable map, in array order
(`makeConfigurationMutable`'s loop); a later pair overwrites an earlier one. -/
def materialize (raw : List (String × String)) : List (String × String) :=
  raw.foldl (fun m p => mapInsert m p.1 p.2) []

/-- `std::lower_bound` on the sorted raw array: first entry whose key is not
less than `k`. -/
def lowerBoundKV (raw : List (String × String)) (k : String) : Option (String × String) :=
  match raw with
  | [] => none
  | p :: t => if strLt p.1 k then lowerBoundKV t k else some p

/-- Binary-search read of the raw snapshot (`DatabaseConfiguration::get`,
immutable branch): `lower_bound`, then a key-equality check. -/
def rawGet (raw : List (String × String)) (k : String) : Option String :=
  match lowerBoundKV raw k with
  | some p => if p.1 == k then some p.2 else none
  | none => none

/-- Boolean test that a key/value list is strictly ascending by key (the
std::map / sorted `rawConfiguration` well-formedness). -/
def sortedByKeyB : List (String × String) → Bool
  | [] => true
  | [_] => true
  | p :: q :: t => strLt p.1 q.1 && sortedByKeyB (q :: t)

/-! ### Replication policies

The policy objects (`PolicyOne`, `PolicyAcross`, `PolicyAnd`) live outside the
source file. Modelled from the spec: §9 asks for a tagged variant with a
deterministic textual signature per constructor. -/

/-- Modelled from the spec: the closed set of failure-domain placement policy
variants (§9, "PolicyOne, PolicyAcross, ... model as a tagged variant"). -/
inductive RepPolicy where
  | policyOne : RepPolicy
  | policyAcross (count : Int) (attrib : String) (sub : RepPolicy) : RepPolicy
  | policyAnd (l r : RepPolicy) : RepPolicy
deriving DecidableEq

/-- Modelled from the spec: the textual signature (`info()`) of a policy, in
the shapes the classifier compares against (§4.5: "zoneid^3 x 1",
"dcid^2 x zoneid^2 x 1", "((dcid^3 x 1) & (zoneid^3 x 1))"). -/
def policyInfo : RepPolicy → String
  | .policyOne => "1"
  | .policyAcross c a s => a ++ "^" ++ toString c ++ " x " ++ policyInfo s
  | .policyAnd l r => "((" ++ policyInfo l ++ ") & (" ++ policyInfo r ++ "))"

/-- One decoding step of the policy encoding, with fuel bounded by the input
length. `O` is PolicyOne, `A<count>,<attrib>,<sub>` is PolicyAcross and
`&<sub><sub>` is PolicyAnd. -/
def decodePolicyAux : Nat → List Char → Option (RepPolicy × List Char)
  | 0, _ => none
  | _ + 1, 'O' :: rest => some (.policyOne, rest)
  | n + 1, 'A' :: rest =>
    let ds := rest.takeWhile (fun c => c.isDigit || c == '-')
    match rest.dropWhile (fun c => c.isDigit || c == '-') with
    | ',' :: r1 =>
      let at' := r1.takeWhile (fun c => c != ',')
      match r1.dropWhile (fun c => c != ',') with
      | ',' :: r2 =>
        match decodePolicyAux n r2 with
        | some (p, r3) => some (.policyAcross (atoiChars ds) (String.mk at') p, r3)
        | none => none
      | _ => none
    | _ => none
  | n + 1, '&' :: rest =>
    match decodePolicyAux n rest with
    | some (p, r1) =>
      match decodePolicyAux n r1 with
      | some (q, r2) => some (.policyAnd p q, r2)
      | none => none
    | none => none
  | _, _ => none
where
  /-- `atoi` on a character list: optional leading blanks, an optional sign,
  then a best-effort decimal prefix; no digits parse as `0`. -/
  atoiChars (l : List Char) : Int :=
    let l1 := l.dropWhile (fun c =>
      c == ' ' || c == '\t' || c == '\n' || c == '\r' ||
      c == Char.ofNat 11 || c == Char.ofNat 12)
    let digitsVal (d : List Char) : Int :=
      d.foldl (fun a c => a * 10 + (Int.ofNat (c.toNat - '0'.toNat))) 0
    match l1 with
    | '-' :: rest => -(digitsVal (rest.takeWhile Char.isDigit))
    | '+' :: rest => digitsVal (rest.takeWhile Char.isDigit)
    | _ => digitsVal (l1.takeWhile Char.isDigit)

/-- Modelled from the spec: the byte-level policy encoding is an external
collaborator ("treated as an opaque serializable value", §1); we use an
explicit injective textual encoding whose decoder fails on malformed bytes,
which is all `parseReplicationPolicy` observes (§7: deserialization failure
is fatal). -/
def decodePolicy (v : String) : Option RepPolicy :=
  match decodePolicyAux (v.data.length + 1) v.data with
  | some (p, []) => some p
  | _ => none

/-- `parse(int*, value)` from the source: `atoi(value.toString().c_str())`. -/
def atoi (s : String) : Int :=
  decodePolicyAux.atoiChars s.data

/-! ### Store-engine enumeration -/

/-- Modelled from the spec: the store-engine kinds with the sentinel `END`
("enumerated store-engine kind, default = sentinel", §3; the named pairs
ssd-1 / ssd-2 / memory appear in §4.5). -/
inductive KVStoreType where
  | SSD_BTREE_V1 : KVStoreType
  | MEMORY : KVStoreType
  | SSD_BTREE_V2 : KVStoreType
  | END : KVStoreType
deriving DecidableEq

/-- Modelled from the spec: the integer-to-enumeration cast used by the
`log_engine`/`storage_engine` entries (§4.2). The spec fixes no numbering;
we adopt 0, 1, 2 for the three engines and send every other integer to the
`END` sentinel. -/
def storeTypeOfInt (i : Int) : KVStoreType :=
  if i = 0 then .SSD_BTREE_V1
  else if i = 1 then .MEMORY
  else if i = 2 then .SSD_BTREE_V2
  else .END

/-! ### Datacenter-identifier lists -/

/-- `parse(std::vector<Optional<...>>*, value)` from the source, faithfully:
for each comma at index `i` it pushes `v.substr(lastBegin, i)` — which under
`StringRef::substr(start, size)` is the `i`-character slice starting at
`lastBegin`, clamped at the end of the string — then pushes the suffix after
the last comma. Every pushed entry is a present optional. -/
def parseDcList (v : String) : List (Option String) :=
  let step := (List.range v.data.length).foldl
    (fun (st : List (List Char) × Nat) i =>
      if v.data.get? i = some ',' then
        (st.1 ++ [(v.data.drop st.2).take i], i + 1)
      else st)
    ([], 0)
  (step.1 ++ [v.data.drop step.2]).map (fun l => some (String.mk l))

/-- Follows the spec's words (§4.2 split rule): splitting on `,` yields the
maximal comma-free segments, at least one even for the empty string, with
consecutive commas contributing empty segments. -/
def splitCommaSpec : List Char → List (List Char)
  | [] => [[]]
  | c :: t =>
    if c = ',' then [] :: splitCommaSpec t
    else
      match splitCommaSpec t with
      | h :: r => (c :: h) :: r
      | [] => [[c]]

/-- Follows the spec's words: the datacenter-identifier list obtained by the
§4.2 split rule, each element a present optional. -/
def specSplitDcs (v : String) : List (Option String) :=
  (splitCommaSpec v.data).map (fun l => some (String.mk l))

/-! ### Typed fields and knobs -/

/-- Modelled from the spec: the process-wide tunable defaults
(`DEFAULT_AUTO_PROXIES` etc.) are an external collaborator; §9 directs that
they be passed as explicit parameters of the aggregate. -/
structure Knobs where
  defaultAutoProxies : Int
  defaultAutoResolvers : Int
  defaultAutoLogs : Int
deriving DecidableEq

/-- The typed fields of `DatabaseConfiguration` (declaration order of the
source's `resetInternal`). -/
structure ConfigFields where
  initialized : Bool
  masterProxyCount : Int
  resolverCount : Int
  desiredTLogCount : Int
  tLogWriteAntiQuorum : Int
  tLogReplicationFactor : Int
  durableStorageQuorum : Int
  storageTeamSize : Int
  tLogDataStoreType : KVStoreType
  storageServerStoreType : KVStoreType
  autoMasterProxyCount : Int
  autoResolverCount : Int
  autoDesiredTLogCount : Int
  primaryDcId : Option String
  remoteDcId : Option String
  tLogPolicy : Option RepPolicy
  storagePolicy : Option RepPolicy
  remoteTLogPolicy : Option RepPolicy
  satelliteTLogPolicy : Option RepPolicy
  remoteDesiredTLogCount : Int
  satelliteDesiredTLogCount : Int
  desiredLogRouterCount : Int
  remoteTLogReplicationFactor : Int
  satelliteTLogReplicationFactor : Int
  satelliteTLogWriteAntiQuorum : Int
  satelliteTLogUsableDcs : Int
  primarySatelliteDcIds : List (Option String)
  remoteSatelliteDcIds : List (Option String)
deriving DecidableEq

/-- `DatabaseConfiguration::resetInternal` (it does not touch the raw/mutable
store): every typed field back to its default, the auto counts re-read from
the knob defaults. -/
def resetInternal (kn : Knobs) : ConfigFields where
  initialized := false
  masterProxyCount := -1
  resolverCount := -1
  desiredTLogCount := -1
  tLogWriteAntiQuorum := -1
  tLogReplicationFactor := -1
  durableStorageQuorum := -1
  storageTeamSize := -1
  tLogDataStoreType := .END
  storageServerStoreType := .END
  autoMasterProxyCount := kn.defaultAutoProxies
  autoResolverCount := kn.defaultAutoResolvers
  autoDesiredTLogCount := kn.defaultAutoLogs
  primaryDcId := none
  remoteDcId := none
  tLogPolicy := none
  storagePolicy := none
  remoteTLogPolicy := none
  satelliteTLogPolicy := none
  remoteDesiredTLogCount := -1
  satelliteDesiredTLogCount := -1
  desiredLogRouterCount := -1
  remoteTLogReplicationFactor := 0
  satelliteTLogReplicationFactor := 0
  satelliteTLogWriteAntiQuorum := 0
  satelliteTLogUsableDcs := 0
  primarySatelliteDcIds := []
  remoteSatelliteDcIds := []

/-- Modelled from the spec (§4.4, the accessors live in the header, which is
not in the source tree): the resolved proxy count — the explicit value when
at least 1, otherwise the auto default. -/
def getDesiredProxies (c : ConfigFields) : Int :=
  if 1 ≤ c.masterProxyCount then c.masterProxyCount else c.autoMasterProxyCount

/-- Modelled from the spec (§4.4): the resolved resolver count. -/
def getDesiredResolvers (c : ConfigFields) : Int :=
  if 1 ≤ c.resolverCount then c.resolverCount else c.autoResolverCount

/-- Modelled from the spec (§4.4): the resolved log count. -/
def getDesiredLogs (c : ConfigFields) : Int :=
  if 1 ≤ c.desiredTLogCount then c.desiredTLogCount else c.autoDesiredTLogCount

/-- Modelled from the spec (§4.4): an unset (-1) remote-log desired count
resolves to 1. -/
def getDesiredRemoteLogs (c : ConfigFields) : Int :=
  if c.remoteDesiredTLogCount = -1 then 1 else c.remoteDesiredTLogCount

/-- Modelled from the spec (§4.4): an unset (-1) satellite-log desired count
resolves to 1. -/
def getDesiredSatelliteLogs (c : ConfigFields) : Int :=
  if c.satelliteDesiredTLogCount = -1 then 1 else c.satelliteDesiredTLogCount

/-- Modelled from the spec (§4.4): an unset (-1) log-router desired count
resolves to 1. -/
def getDesiredLogRouters (c : ConfigFields) : Int :=
  if c.desiredLogRouterCount = -1 then 1 else c.desiredLogRouterCount

/-- `DatabaseConfiguration::setDefaultReplicationPolicy`: fill each unset
policy with a per-zone `PolicyAcross` over the matching replication factor;
the remote and satellite defaults only when their factor is positive. -/
def setDefaultReplicationPolicy (c : ConfigFields) : ConfigFields :=
  let zoneAcross (n : Int) : Option RepPolicy := some (.policyAcross n "zoneid" .policyOne)
  let c := if c.storagePolicy.isNone then
    { c with storagePolicy := zoneAcross c.storageTeamSize } else c
  let c := if c.tLogPolicy.isNone then
    { c with tLogPolicy := zoneAcross c.tLogReplicationFactor } else c
  let c := if 0 < c.remoteTLogReplicationFactor && c.remoteTLogPolicy.isNone then
    { c with remoteTLogPolicy := zoneAcross c.remoteTLogReplicationFactor } else c
  if 0 < c.satelliteTLogReplicationFactor && c.satelliteTLogPolicy.isNone then
    { c with satelliteTLogPolicy := zoneAcross c.satelliteTLogReplicationFactor }
  else c

/-- `DatabaseConfiguration::isValid`, conjunct for conjunct in source order. -/
def isValid (c : ConfigFields) : Bool :=
  c.initialized &&
  decide (0 ≤ c.tLogWriteAntiQuorum) &&
  decide (1 ≤ c.tLogReplicationFactor) &&
  decide (1 ≤ c.durableStorageQuorum) &&
  decide (1 ≤ c.storageTeamSize) &&
  decide (1 ≤ getDesiredProxies c) &&
  decide (1 ≤ getDesiredLogs c) &&
  decide (1 ≤ getDesiredResolvers c) &&
  decide (c.durableStorageQuorum ≤ c.storageTeamSize) &&
  decide (c.tLogDataStoreType ≠ KVStoreType.END) &&
  decide (c.storageServerStoreType ≠ KVStoreType.END) &&
  decide (1 ≤ c.autoMasterProxyCount) &&
  decide (1 ≤ c.autoResolverCount) &&
  decide (1 ≤ c.autoDesiredTLogCount) &&
  c.storagePolicy.isSome &&
  c.tLogPolicy.isSome &&
  decide (1 ≤ getDesiredRemoteLogs c) &&
  decide (1 ≤ getDesiredLogRouters c) &&
  decide (0 ≤ c.remoteTLogReplicationFactor) &&
  (decide (c.remoteTLogReplicationFactor = 0) ||
    (c.remoteTLogPolicy.isSome && c.primaryDcId.isSome && c.remoteDcId.isSome &&
      decide (c.durableStorageQuorum = c.storageTeamSize))) &&
  (c.primaryDcId.isSome == c.remoteDcId.isSome) &&
  decide (1 ≤ getDesiredSatelliteLogs c) &&
  decide (0 ≤ c.satelliteTLogReplicationFactor) &&
  decide (0 ≤ c.satelliteTLogWriteAntiQuorum) &&
  decide (0 ≤ c.satelliteTLogUsableDcs) &&
  (decide (c.satelliteTLogReplicationFactor = 0) ||
    (c.satelliteTLogPolicy.isSome && !c.primarySatelliteDcIds.isEmpty &&
      !c.remoteSatelliteDcIds.isEmpty && decide (0 < c.remoteTLogReplicationFactor))) &&
  decide (c.primarySatelliteDcIds.length = c.remoteSatelliteDcIds.length)

/-! ### Redundancy classifier (`DatabaseConfiguration::toMap` / `toString`) -/

/-- Modelled from the spec: the printable rendering of a byte string used by
the classifier's passthrough keys (§4.5); printable ASCII renders as itself,
a backslash doubles, anything else becomes a two-digit hex escape. -/
def printable (s : String) : String :=
  let hexDigit (n : Nat) : Char :=
    if n < 10 then Char.ofNat ('0'.toNat + n) else Char.ofNat ('a'.toNat + (n - 10))
  String.mk (s.data.foldr (fun c acc =>
    if c = '\\' then '\\' :: '\\' :: acc
    else if 32 ≤ c.toNat ∧ c.toNat < 127 then c :: acc
    else '\\' :: 'x' :: hexDigit (c.toNat / 16 % 16) :: hexDigit (c.toNat % 16) :: acc) [])

/-- The satellite-datacenter rendering loop of `toMap`, faithfully including
its `first` flag: the flag starts true and is only assigned (to false) inside
the `if(!first)` branch, so the separator is never actually emitted. -/
def renderDcIds (l : List (Option String)) : String :=
  (l.foldl (fun (st : String × Bool) it =>
    match it with
    | some d =>
      let st := if !st.2 then (st.1 ++ ",", false) else st
      (st.1 ++ printable d, st.2)
    | none => st) ("", true)).1

/-- The `redundancy_mode` classification chain of `toMap`, branch for branch. -/
def redundancyModeStr (c : ConfigFields) (tlogInfo storageInfo : String) : String :=
  if c.durableStorageQuorum = c.storageTeamSize ∧ c.tLogWriteAntiQuorum = 0 then
    if c.tLogReplicationFactor = 1 ∧ c.durableStorageQuorum = 1 then "single"
    else if c.tLogReplicationFactor = 2 ∧ c.durableStorageQuorum = 2 then "double"
    else if c.tLogReplicationFactor = 3 ∧ c.durableStorageQuorum = 3 ∧
        tlogInfo = "((dcid^3 x 1) & (zoneid^3 x 1))" ∧
        storageInfo = "((dcid^3 x 1) & (zoneid^3 x 1))" then "three_datacenter"
    else if c.tLogReplicationFactor = 3 ∧ c.durableStorageQuorum = 3 then "triple"
    else if c.tLogReplicationFactor = 4 ∧ c.durableStorageQuorum = 3 ∧
        tlogInfo = "data_hall^2 x zoneid^2 x 1" ∧
        storageInfo = "data_hall^3 x 1" then "three_data_hall"
    else if c.tLogReplicationFactor = 4 ∧ c.durableStorageQuorum = 6 ∧
        tlogInfo = "dcid^2 x zoneid^2 x 1" ∧
        storageInfo = "dcid^3 x zoneid^2 x 1" then "multi_dc"
    else "custom"
  else "custom"

/-- The `storage_engine` classification of `toMap`. -/
def storageEngineStr (c : ConfigFields) : String :=
  if c.tLogDataStoreType = .SSD_BTREE_V1 ∧ c.storageServerStoreType = .SSD_BTREE_V1 then "ssd-1"
  else if c.tLogDataStoreType = .SSD_BTREE_V2 ∧ c.storageServerStoreType = .SSD_BTREE_V2 then "ssd-2"
  else if c.tLogDataStoreType = .MEMORY ∧ c.storageServerStoreType = .MEMORY then "memory"
  else "custom"

/-- The `satellite_redundancy_mode` classification of `toMap`. -/
def satelliteModeStr (c : ConfigFields) : String :=
  if c.satelliteTLogReplicationFactor = 1 ∧ c.satelliteTLogUsableDcs = 1 ∧
      c.satelliteTLogWriteAntiQuorum = 0 then "one_satellite_single"
  else if c.satelliteTLogReplicationFactor = 2 ∧ c.satelliteTLogUsableDcs = 1 ∧
      c.satelliteTLogWriteAntiQuorum = 0 then "one_satellite_double"
  else if c.satelliteTLogReplicationFactor = 3 ∧ c.satelliteTLogUsableDcs = 1 ∧
      c.satelliteTLogWriteAntiQuorum = 0 then "one_satellite_triple"
  else if c.satelliteTLogReplicationFactor = 4 ∧ c.satelliteTLogUsableDcs = 2 ∧
      c.satelliteTLogWriteAntiQuorum = 0 then "two_satellite_safe"
  else if c.satelliteTLogReplicationFactor = 4 ∧ c.satelliteTLogUsableDcs = 2 ∧
      c.satelliteTLogWriteAntiQuorum = 2 then "two_satellite_fast"
  else if c.satelliteTLogReplicationFactor = 0 then "none"
  else "custom"

/-- The `remote_redundancy_mode` classification of `toMap`. -/
def remoteModeStr (c : ConfigFields) : String :=
  if c.remoteTLogReplicationFactor = 1 then "remote_single"
  else if c.remoteTLogReplicationFactor = 2 then "remote_double"
  else if c.remoteTLogReplicationFactor = 3 then "remote_triple"
  else if c.remoteTLogReplicationFactor = 0 then "none"
  else "custom"

/-- The entries `DatabaseConfiguration::toMap` assigns, in source order: the
four classifications unconditionally, each passthrough key under exactly the
condition the source tests (note the three log counts are all gated on
`desiredTLogCount`, as in the source). -/
def toMapEntries (c : ConfigFields) (tlogInfo storageInfo : String) : List (String × String) :=
  [("redundancy_mode", redundancyModeStr c tlogInfo storageInfo),
   ("storage_engine", storageEngineStr c)]
  ++ (match c.primaryDcId with
      | some d => [("primary_dc", printable d)]
      | none => [])
  ++ (match c.remoteDcId with
      | some d => [("remote_dc", printable d)]
      | none => [])
  ++ (if !c.primarySatelliteDcIds.isEmpty then
        [("primary_satellite_dcs", renderDcIds c.primarySatelliteDcIds)] else [])
  ++ (if !c.remoteSatelliteDcIds.isEmpty then
        [("remote_satellite_dcs", renderDcIds c.remoteSatelliteDcIds)] else [])
  ++ [("satellite_redundancy_mode", satelliteModeStr c),
      ("remote_redundancy_mode", remoteModeStr c)]
  ++ (if c.desiredTLogCount ≠ -1 then [("logs", toString c.desiredTLogCount)] else [])
  ++ (if c.desiredTLogCount ≠ -1 then
        [("remote_logs", toString c.remoteDesiredTLogCount)] else [])
  ++ (if c.desiredTLogCount ≠ -1 then
        [("satellite_logs", toString c.satelliteDesiredTLogCount)] else [])
  ++ (if c.masterProxyCount ≠ -1 then [("proxies", toString c.masterProxyCount)] else [])
  ++ (if c.resolverCount ≠ -1 then [("resolvers", toString c.resolverCount)] else [])

/-- `DatabaseConfiguration::toMap`. When initialized it starts by reading
`tLogPolicy->info()` and `storagePolicy->info()`; an absent policy there is a
null dereference in the source, modelled as `none`. The entries are assigned
into the key-ordered map in source order (`materialize` performs exactly the
sequence of ordered-map assignments). -/
def toMap (c : ConfigFields) : Option (List (String × String)) :=
  if c.initialized then
    match c.tLogPolicy, c.storagePolicy with
    | some tp, some sp =>
      some (materialize (toMapEntries c (policyInfo tp) (policyInfo sp)))
    | _, _ => none
  else some []

/-- Lookup of one canonical-map key, `none` both for a missing key and for the
undefined (absent-policy) case. -/
def lookupToMap (c : ConfigFields) (k : String) : Option String :=
  (toMap c).bind (fun m => mapLookup m k)

/-- `result.substr(0, result.length()-1)`: everything but the last character
(the empty string stays empty, as with the size_t wraparound in the source). -/
def chopLast (s : String) : String :=
  String.mk (s.data.take (s.data.length - 1))

/-- `DatabaseConfiguration::toString`: append `key=value;` for every map entry
in map (hence ascending key) order, then drop the final separator. -/
def configToString (c : ConfigFields) : Option String :=
  (toMap c).map (fun m =>
    chopLast (m.foldl (fun acc p => acc ++ p.1 ++ "=" ++ p.2 ++ ";") ""))

/-- Follows the spec's words (§4.5): `key=value` pairs joined by `;` with no
trailing separator. -/
def specRender : List (String × String) → String
  | [] => ""
  | [p] => p.1 ++ "=" ++ p.2
  | p :: q :: t => p.1 ++ "=" ++ p.2 ++ ";" ++ specRender (q :: t)

/-! ### Field parser (`DatabaseConfiguration::setInternal`) -/

/-- Modelled from the spec: the fixed configuration-namespace key prefix
(§6; the concrete bytes live in the external `SystemData` collaborator). -/
def configKeysPfx : String := "ÿ/conf/"

/-- Modelled from the spec: `key.removePrefix(configKeysPrefix)` — the
dispatch is defined for keys inside the configuration namespace (§4.2/§6);
a key without the prefix matches no dispatch entry. -/
def removeConfPfx (k : String) : Option String :=
  if configKeysPfx.data.isPrefixOf k.data then
    some (String.mk (k.data.drop configKeysPfx.data.length))
  else none

/-- One recognized key suffix of the dispatch chain, in source order. -/
inductive CfgSlot where
  | sInitialized | sProxies | sResolvers | sLogs | sLogReplicas | sLogAntiQuorum
  | sStorageQuorum | sStorageReplicas | sLogEngine | sStorageEngine
  | sAutoProxies | sAutoResolvers | sAutoLogs
  | sStoragePolicy | sLogPolicy
  | sRemoteLogs | sRemoteLogReplicas | sRemoteLogPolicy | sSatelliteLogPolicy
  | sSatelliteLogs | sSatelliteLogReplicas | sSatelliteAntiQuorum | sSatelliteUsableDcs
  | sPrimaryDc | sRemoteDc | sPrimarySatelliteDcs | sRemoteSatelliteDcs | sLogRouters
deriving DecidableEq

/-- The intermediate value a dispatch branch computes from the raw bytes
before writing its field. -/
inductive SlotVal where
  | vUnit : SlotVal
  | vInt (i : Int) : SlotVal
  | vStr (s : String) : SlotVal
  | vDcs (l : List (Option String)) : SlotVal
  | vPolicy (p : RepPolicy) : SlotVal
deriving DecidableEq

def SlotVal.toInt : SlotVal → Int
  | .vInt i => i
  | _ => 0

def SlotVal.toStr : SlotVal → String
  | .vStr s => s
  | _ => ""

def SlotVal.toDcs : SlotVal → List (Option String)
  | .vDcs l => l
  | _ => []

def SlotVal.toPolicyOpt : SlotVal → Option RepPolicy
  | .vPolicy p => some p
  | _ => none

/-- How each dispatch branch interprets the value bytes: `parse` into an
integer, policy deserialization (fatal on failure), a verbatim byte string, or
the comma split — exactly the right-hand sides of the source's chain. -/
def slotParse (s : CfgSlot) (v : String) : Except Unit SlotVal :=
  match s with
  | .sInitialized => .ok .vUnit
  | .sProxies | .sResolvers | .sLogs | .sLogReplicas | .sLogAntiQuorum
  | .sStorageQuorum | .sStorageReplicas | .sLogEngine | .sStorageEngine
  | .sAutoProxies | .sAutoResolvers | .sAutoLogs
  | .sRemoteLogs | .sRemoteLogReplicas
  | .sSatelliteLogs | .sSatelliteLogReplicas | .sSatelliteAntiQuorum
  | .sSatelliteUsableDcs | .sLogRouters => .ok (.vInt (atoi v))
  | .sStoragePolicy | .sLogPolicy | .sRemoteLogPolicy | .sSatelliteLogPolicy =>
    match decodePolicy v with
    | some p => .ok (.vPolicy p)
    | none => .error ()
  | .sPrimaryDc | .sRemoteDc => .ok (.vStr v)
  | .sPrimarySatelliteDcs | .sRemoteSatelliteDcs => .ok (.vDcs (parseDcList v))

/-- The field each dispatch branch assigns — the left-hand sides of the
source's chain. -/
def slotWrite (f : ConfigFields) (s : CfgSlot) (x : SlotVal) : ConfigFields :=
  match s with
  | .sInitialized => { f with initialized := true }
  | .sProxies => { f with masterProxyCount := x.toInt }
  | .sResolvers => { f with resolverCount := x.toInt }
  | .sLogs => { f with desiredTLogCount := x.toInt }
  | .sLogReplicas => { f with tLogReplicationFactor := x.toInt }
  | .sLogAntiQuorum => { f with tLogWriteAntiQuorum := x.toInt }
  | .sStorageQuorum => { f with durableStorageQuorum := x.toInt }
  | .sStorageReplicas => { f with storageTeamSize := x.toInt }
  | .sLogEngine => { f with tLogDataStoreType := storeTypeOfInt x.toInt }
  | .sStorageEngine => { f with storageServerStoreType := storeTypeOfInt x.toInt }
  | .sAutoProxies => { f with autoMasterProxyCount := x.toInt }
  | .sAutoResolvers => { f with autoResolverCount := x.toInt }
  | .sAutoLogs => { f with autoDesiredTLogCount := x.toInt }
  | .sStoragePolicy => { f with storagePolicy := x.toPolicyOpt }
  | .sLogPolicy => { f with tLogPolicy := x.toPolicyOpt }
  | .sRemoteLogs => { f with remoteDesiredTLogCount := x.toInt }
  | .sRemoteLogReplicas => { f with remoteTLogReplicationFactor := x.toInt }
  | .sRemoteLogPolicy => { f with remoteTLogPolicy := x.toPolicyOpt }
  | .sSatelliteLogPolicy => { f with satelliteTLogPolicy := x.toPolicyOpt }
  | .sSatelliteLogs => { f with satelliteDesiredTLogCount := x.toInt }
  | .sSatelliteLogReplicas => { f with satelliteTLogReplicationFactor := x.toInt }
  | .sSatelliteAntiQuorum => { f with satelliteTLogWriteAntiQuorum := x.toInt }
  | .sSatelliteUsableDcs => { f with satelliteTLogUsableDcs := x.toInt }
  | .sPrimaryDc => { f with primaryDcId := some x.toStr }
  | .sRemoteDc => { f with remoteDcId := some x.toStr }
  | .sPrimarySatelliteDcs => { f with primarySatelliteDcIds := x.toDcs }
  | .sRemoteSatelliteDcs => { f with remoteSatelliteDcIds := x.toDcs }
  | .sLogRouters => { f with desiredLogRouterCount := x.toInt }

/-- The recognized key suffix of each slot. -/
abbrev slotKey : CfgSlot → String
  | .sInitialized => "initialized"
  | .sProxies => "proxies"
  | .sResolvers => "resolvers"
  | .sLogs => "logs"
  | .sLogReplicas => "log_replicas"
  | .sLogAntiQuorum => "log_anti_quorum"
  | .sStorageQuorum => "storage_quorum"
  | .sStorageReplicas => "storage_replicas"
  | .sLogEngine => "log_engine"
  | .sStorageEngine => "storage_engine"
  | .sAutoProxies => "auto_proxies"
  | .sAutoResolvers => "auto_resolvers"
  | .sAutoLogs => "auto_logs"
  | .sStoragePolicy => "storage_replication_policy"
  | .sLogPolicy => "log_replication_policy"
  | .sRemoteLogs => "remote_logs"
  | .sRemoteLogReplicas => "remote_log_replicas"
  | .sRemoteLogPolicy => "remote_log_policy"
  | .sSatelliteLogPolicy => "satellite_log_policy"
  | .sSatelliteLogs => "satellite_logs"
  | .sSatelliteLogReplicas => "satellite_log_replicas"
  | .sSatelliteAntiQuorum => "satellite_anti_quorum"
  | .sSatelliteUsableDcs => "satellite_usable_dcs"
  | .sPrimaryDc => "primary_dc"
  | .sRemoteDc => "remote_dc"
  | .sPrimarySatelliteDcs => "primary_satellite_dcs"
  | .sRemoteSatelliteDcs => "remote_satellite_dcs"
  | .sLogRouters => "log_routers"

/-- The source's if/else-if dispatch chain on the stripped key, in source
order (the comparisons are mutually exclusive string literals). -/
def tableLookup (ck : String) : Option CfgSlot :=
  if ck = "initialized" then some .sInitialized
  else if ck = "proxies" then some .sProxies
  else if ck = "resolvers" then some .sResolvers
  else if ck = "logs" then some .sLogs
  else if ck = "log_replicas" then some .sLogReplicas
  else if ck = "log_anti_quorum" then some .sLogAntiQuorum
  else if ck = "storage_quorum" then some .sStorageQuorum
  else if ck = "storage_replicas" then some .sStorageReplicas
  else if ck = "log_engine" then some .sLogEngine
  else if ck = "storage_engine" then some .sStorageEngine
  else if ck = "auto_proxies" then some .sAutoProxies
  else if ck = "auto_resolvers" then some .sAutoResolvers
  else if ck = "auto_logs" then some .sAutoLogs
  else if ck = "storage_replication_policy" then some .sStoragePolicy
  else if ck = "log_replication_policy" then some .sLogPolicy
  else if ck = "remote_logs" then some .sRemoteLogs
  else if ck = "remote_log_replicas" then some .sRemoteLogReplicas
  else if ck = "remote_log_policy" then some .sRemoteLogPolicy
  else if ck = "satellite_log_policy" then some .sSatelliteLogPolicy
  else if ck = "satellite_logs" then some .sSatelliteLogs
  else if ck = "satellite_log_replicas" then some .sSatelliteLogReplicas
  else if ck = "satellite_anti_quorum" then some .sSatelliteAntiQuorum
  else if ck = "satellite_usable_dcs" then some .sSatelliteUsableDcs
  else if ck = "primary_dc" then some .sPrimaryDc
  else if ck = "remote_dc" then some .sRemoteDc
  else if ck = "primary_satellite_dcs" then some .sPrimarySatelliteDcs
  else if ck = "remote_satellite_dcs" then some .sRemoteSatelliteDcs
  else if ck = "log_routers" then some .sLogRouters
  else none

/-- `DatabaseConfiguration::setInternal`: strip the namespace, dispatch, parse
the value and write the field; `false` for an unrecognized key, an error for a
policy value that fails to deserialize. -/
def setInternal (f : ConfigFields) (key value : String) : Except Unit (Bool × ConfigFields) :=
  match removeConfPfx key with
  | none => .ok (false, f)
  | some ck =>
    match tableLookup ck with
    | none => .ok (false, f)
    | some slot =>
      match slotParse slot value with
      | .error e => .error e
      | .ok x => .ok (true, slotWrite f slot x)

/-! ### The aggregate: store plus fields (`DatabaseConfiguration`) -/

/-- The aggregate state: the knob parameters, the typed fields, and the dual
raw/mutable key/value store. -/
structure DBState where
  knobs : Knobs
  fields : ConfigFields
  rawConfiguration : List (String × String)
  mutableConfiguration : Option (List (String × String))

/-- A freshly constructed configuration (the constructor runs
`resetInternal`; both store representations empty). -/
def initState (kn : Knobs) : DBState :=
  ⟨kn, resetInternal kn, [], none⟩

/-- The current overlay contents: the mutable map when present, otherwise
what materializing the raw snapshot would produce. -/
def currentOverlay (s : DBState) : List (String × String) :=
  match s.mutableConfiguration with
  | some m => m
  | none => materialize s.rawConfiguration

/-- `DatabaseConfiguration::makeConfigurationMutable`: copy the raw pairs into
a fresh map and discard the raw snapshot; no-op when already mutable. -/
def makeConfigurationMutable (s : DBState) : DBState :=
  match s.mutableConfiguration with
  | some _ => s
  | none =>
    { s with mutableConfiguration := some (materialize s.rawConfiguration),
             rawConfiguration := [] }

/-- `DatabaseConfiguration::set`: materialize, insert into the overlay, then
run the field parser. -/
def dcSet (s : DBState) (k v : String) : Except Unit (Bool × DBState) :=
  let s1 := makeConfigurationMutable s
  match setInternal s1.fields k v with
  | .error e => .error e
  | .ok (b, f) =>
    .ok (b, { s1 with fields := f,
                      mutableConfiguration := some (mapInsert (currentOverlay s1) k v) })

/-- The reset-and-replay of `DatabaseConfiguration::clear`: all typed fields
back to defaults, then `setInternal` over the given pairs in list order. -/
def reparse (kn : Knobs) (l : List (String × String)) : Except Unit ConfigFields :=
  l.foldlM (fun f p => (setInternal f p.1 p.2).map (·.2)) (resetInternal kn)

/-- `DatabaseConfiguration::clear`: materialize, erase `[a, b)` from the
overlay, remember whether the fields were valid, reset and replay the
remaining pairs, and report a valid-to-invalid transition. -/
def dcClear (s : DBState) (a b : String) : Except Unit (Bool × DBState) :=
  let s1 := makeConfigurationMutable s
  let m2 := eraseRange a b (currentOverlay s1)
  let wasValid := isValid s1.fields
  match reparse s1.knobs m2 with
  | .error e => .error e
  | .ok f => .ok (wasValid && !(isValid f), { s1 with fields := f, mutableConfiguration := some m2 })

/-- `DatabaseConfiguration::get`: overlay lookup when mutable, binary search
of the raw snapshot otherwise. -/
def dcGet (s : DBState) (k : String) : Option String :=
  match s.mutableConfiguration with
  | some m => mapLookup m k
  | none => rawGet s.rawConfiguration k

/-- A sequence of `set` edits, stopping at the first fatal one. -/
def applySets (s : DBState) : List (String × String) → Except Unit DBState
  | [] => .ok s
  | p :: t =>
    match dcSet s p.1 p.2 with
    | .error e => .error e
    | .ok (_, s1) => applySets s1 t

/-- Store well-formedness: the raw snapshot is sorted by key, and so is the
overlay when it exists (std::map iteration order). -/
def StoreWF (s : DBState) : Bool :=
  sortedByKeyB s.rawConfiguration &&
  (match s.mutableConfiguration with
   | none => true
   | some m => sortedByKeyB m)

/-- Follows the spec's words: the §3 invariant list, bullet for bullet
(resolved counts per §4.4), with no condition on the auto defaults beyond
their use in resolution. -/
def specInvariants (c : ConfigFields) : Bool :=
  c.initialized &&
  decide (0 ≤ c.tLogWriteAntiQuorum) &&
  decide (1 ≤ c.tLogReplicationFactor) &&
  decide (1 ≤ c.durableStorageQuorum) &&
  decide (1 ≤ c.storageTeamSize) &&
  decide (c.durableStorageQuorum ≤ c.storageTeamSize) &&
  decide (1 ≤ getDesiredProxies c) &&
  decide (1 ≤ getDesiredResolvers c) &&
  decide (1 ≤ getDesiredLogs c) &&
  decide (1 ≤ getDesiredRemoteLogs c) &&
  decide (1 ≤ getDesiredSatelliteLogs c) &&
  decide (1 ≤ getDesiredLogRouters c) &&
  decide (c.tLogDataStoreType ≠ KVStoreType.END) &&
  decide (c.storageServerStoreType ≠ KVStoreType.END) &&
  c.storagePolicy.isSome &&
  c.tLogPolicy.isSome &&
  (decide (c.remoteTLogReplicationFactor = 0) ||
    (c.remoteTLogPolicy.isSome && c.primaryDcId.isSome && c.remoteDcId.isSome &&
      decide (c.durableStorageQuorum = c.storageTeamSize))) &&
  (c.primaryDcId.isSome == c.remoteDcId.isSome) &&
  (decide (c.satelliteTLogReplicationFactor = 0) ||
    (c.satelliteTLogPolicy.isSome && !c.primarySatelliteDcIds.isEmpty &&
      !c.remoteSatelliteDcIds.isEmpty && decide (0 < c.remoteTLogReplicationFactor))) &&
  decide (c.primarySatelliteDcIds.length = c.remoteSatelliteDcIds.length)



set_option autoImplicit false

/-- The strict key order on entries (the std::map ordering). -/
abbrev keyLt (p q : String × String) : Prop := strLt p.1 q.1 = true

/-! ### The byte-wise order: basic facts -/

theorem strLtB_irrefl : ∀ l, strLtB l l = false := by
  intro l
  induction l with
  | nil => rfl
  | cons c cs ih => simp [strLtB, ih]

theorem strLtB_asymm : ∀ l1 l2, strLtB l1 l2 = true → strLtB l2 l1 = false := by
  intro l1
  induction l1 with
  | nil =>
    intro l2 h
    cases l2 with
    | nil => simp [strLtB] at h
    | cons d ds => rfl
  | cons c cs ih =>
    intro l2 h
    cases l2 with
    | nil => simp [strLtB] at h
    | cons d ds =>
      simp only [strLtB] at h ⊢
      by_cases h1 : c.toNat < d.toNat
      · rw [if_neg (by omega : ¬d.toNat < c.toNat), if_pos h1]
      · rw [if_neg h1] at h
        by_cases h2 : d.toNat < c.toNat
        · rw [if_pos h2] at h
          exact absurd h (by simp)
        · rw [if_neg h2] at h
          rw [if_neg h2, if_neg h1]
          exact ih ds h

theorem strLtB_trans : ∀ l1 l2 l3, strLtB l1 l2 = true → strLtB l2 l3 = true →
    strLtB l1 l3 = true := by
  intro l1
  induction l1 with
  | nil =>
    intro l2 l3 h1 h2
    cases l2 with
    | nil => simp [strLtB] at h1
    | cons d ds =>
      cases l3 with
      | nil => simp [strLtB] at h2
      | cons e es => rfl
  | cons c cs ih =>
    intro l2 l3 h1 h2
    cases l2 with
    | nil => simp [strLtB] at h1
    | cons d ds =>
      cases l3 with
      | nil => simp [strLtB] at h2
      | cons e es =>
        simp only [strLtB] at h1 h2 ⊢
        by_cases hcd : c.toNat < d.toNat
        · by_cases hde : d.toNat < e.toNat
          · rw [if_pos (by omega : c.toNat < e.toNat)]
          · by_cases hed : e.toNat < d.toNat
            · rw [if_neg hde, if_pos hed] at h2
              exact absurd h2 (by simp)
            · rw [if_pos (by omega : c.toNat < e.toNat)]
        · rw [if_neg hcd] at h1
          by_cases hdc : d.toNat < c.toNat
          · rw [if_pos hdc] at h1
            exact absurd h1 (by simp)
          · rw [if_neg hdc] at h1
            by_cases hde : d.toNat < e.toNat
            · rw [if_pos (by omega : c.toNat < e.toNat)]
            · by_cases hed : e.toNat < d.toNat
              · rw [if_neg hde, if_pos hed] at h2
                exact absurd h2 (by simp)
              · rw [if_neg hde, if_neg hed] at h2
                rw [if_neg (by omega : ¬c.toNat < e.toNat),
                  if_neg (by omega : ¬e.toNat < c.toNat)]
                exact ih ds es h1 h2

theorem strLtB_eq_of_not : ∀ l1 l2, strLtB l1 l2 = false → strLtB l2 l1 = false →
    l1 = l2 := by
  intro l1
  induction l1 with
  | nil =>
    intro l2 h1 _
    cases l2 with
    | nil => rfl
    | cons d ds => simp [strLtB] at h1
  | cons c cs ih =>
    intro l2 h1 h2
    cases l2 with
    | nil => simp [strLtB] at h2
    | cons d ds =>
      simp only [strLtB] at h1 h2
      by_cases hcd : c.toNat < d.toNat
      · rw [if_pos hcd] at h1
        exact absurd h1 (by simp)
      · rw [if_neg hcd] at h1
        by_cases hdc : d.toNat < c.toNat
        · rw [if_pos hdc] at h2
          exact absurd h2 (by simp)
        · rw [if_neg hdc] at h1
          rw [if_neg hdc, if_neg hcd] at h2
          have hc : c = d := Char.ofNat_toNat c ▸ Char.ofNat_toNat d ▸
            congrArg Char.ofNat (by omega : c.toNat = d.toNat)
          rw [hc, ih ds h1 h2]

theorem strEq_of_data {a b : String} (h : a.data = b.data) : a = b := by
  cases a
  cases b
  exact congrArg String.mk h

theorem strLt_irrefl (a : String) : strLt a a = false := strLtB_irrefl a.data

theorem strLt_asymm {a b : String} (h : strLt a b = true) : strLt b a = false :=
  strLtB_asymm a.data b.data h

theorem strLt_trans {a b c : String} (h1 : strLt a b = true) (h2 : strLt b c = true) :
    strLt a c = true :=
  strLtB_trans a.data b.data c.data h1 h2

theorem strLt_eq_of_not {a b : String} (h1 : strLt a b = false)
    (h2 : strLt b a = false) : a = b :=
  strEq_of_data (strLtB_eq_of_not a.data b.data h1 h2)

theorem strLt_ne {a b : String} (h : strLt a b = true) : a ≠ b := by
  intro he
  rw [he, strLt_irrefl] at h
  exact Bool.noConfusion h

theorem strLt_cases (a b : String) :
    strLt a b = true ∨ a = b ∨ strLt b a = true := by
  cases h1 : strLt a b
  · cases h2 : strLt b a
    · exact Or.inr (Or.inl (strLt_eq_of_not h1 h2))
    · exact Or.inr (Or.inr rfl)
  · exact Or.inl rfl

theorem strLt_of_not_of_ne {a b : String} (h1 : strLt a b = false) (h2 : a ≠ b) :
    strLt b a = true := by
  cases h : strLt b a
  · exact absurd (strLt_eq_of_not h1 h) h2
  · rfl

/-! ### Lemmas about the ordered-map primitives -/

theorem mapLookup_insert (m : List (String × String)) (k v k' : String) :
    mapLookup (mapInsert m k v) k' = if k = k' then some v else mapLookup m k' := by
  induction m with
  | nil => by_cases h : k = k' <;> simp [mapInsert, mapLookup, h]
  | cons p t ih =>
    simp only [mapInsert]
    by_cases h1 : strLt k p.1 = true
    · rw [if_pos h1]
      simp only [mapLookup]
    · rw [if_neg h1]
      by_cases h2 : k = p.1
      · rw [if_pos h2]
        simp only [mapLookup]
        by_cases h : k = k'
        · rw [if_pos h, if_pos h]
        · rw [if_neg h, if_neg h, if_neg (fun hpk => h (h2.trans hpk))]
      · rw [if_neg h2]
        simp only [mapLookup]
        rw [ih]
        by_cases hp : p.1 = k' <;> by_cases hk : k = k'
        · exact absurd (hk.trans hp.symm) h2
        · rw [if_pos hp, if_neg hk, if_pos hp]
        · rw [if_neg hp, if_pos hk, if_pos hk]
        · rw [if_neg hp, if_neg hk, if_neg hk, if_neg hp]

theorem mem_mapInsert (m : List (String × String)) (k v : String) (x : String × String)
    (h : x ∈ mapInsert m k v) : x = (k, v) ∨ x ∈ m := by
  induction m with
  | nil =>
    simp [mapInsert] at h
    exact Or.inl h
  | cons p t ih =>
    simp only [mapInsert] at h
    by_cases h1 : strLt k p.1 = true
    · rw [if_pos h1] at h
      rcases List.mem_cons.mp h with h' | h'
      · exact Or.inl h'
      · exact Or.inr h'
    · rw [if_neg h1] at h
      by_cases h2 : k = p.1
      · rw [if_pos h2] at h
        rcases List.mem_cons.mp h with h' | h'
        · exact Or.inl h'
        · exact Or.inr (List.mem_cons_of_mem p h')
      · rw [if_neg h2] at h
        rcases List.mem_cons.mp h with h' | h'
        · exact Or.inr (h' ▸ List.mem_cons_self p t)
        · rcases ih h' with h'' | h''
          · exact Or.inl h''
          · exact Or.inr (List.mem_cons_of_mem p h'')

theorem mapInsert_pairwise (m : List (String × String)) (k v : String)
    (hs : List.Pairwise keyLt m) : List.Pairwise keyLt (mapInsert m k v) := by
  induction m with
  | nil => simp [mapInsert, List.pairwise_cons]
  | cons p t ih =>
    rcases List.pairwise_cons.mp hs with ⟨hhead, htail⟩
    simp only [mapInsert]
    by_cases h1 : strLt k p.1 = true
    · rw [if_pos h1]
      refine List.pairwise_cons.mpr ⟨?_, hs⟩
      intro x hx
      rcases List.mem_cons.mp hx with h | h
      · exact h ▸ h1
      · exact strLt_trans h1 (hhead x h)
    · rw [if_neg h1]
      by_cases h2 : k = p.1
      · rw [if_pos h2]
        refine List.pairwise_cons.mpr ⟨?_, htail⟩
        intro x hx
        exact h2 ▸ hhead x hx
      · rw [if_neg h2]
        refine List.pairwise_cons.mpr ⟨?_, ih htail⟩
        intro x hx
        rcases mem_mapInsert t k v x hx with h | h
        · subst h
          exact strLt_of_not_of_ne (Bool.eq_false_iff.mpr h1 ▸ rfl) h2
        · exact hhead x h

theorem mapLookup_none_of_forall_gt (m : List (String × String)) (k : String)
    (h : ∀ q ∈ m, strLt k q.1 = true) : mapLookup m k = none := by
  induction m with
  | nil => rfl
  | cons p t ih =>
    simp only [mapLookup]
    rw [if_neg (Ne.symm (strLt_ne (h p (List.mem_cons_self p t))))]
    exact ih (fun q hq => h q (List.mem_cons_of_mem p hq))

theorem sorted_lookup_ext : ∀ l1 l2 : List (String × String),
    List.Pairwise keyLt l1 → List.Pairwise keyLt l2 →
    (∀ k, mapLookup l1 k = mapLookup l2 k) → l1 = l2 := by
  intro l1
  induction l1 with
  | nil =>
    intro l2 _ _ h
    cases l2 with
    | nil => rfl
    | cons q t2 =>
      have := h q.1
      simp [mapLookup] at this
  | cons p t1 ih =>
    intro l2 h1 h2 h
    cases l2 with
    | nil =>
      have := h p.1
      simp [mapLookup] at this
    | cons q t2 =>
      rcases List.pairwise_cons.mp h1 with ⟨hh1, ht1⟩
      rcases List.pairwise_cons.mp h2 with ⟨hh2, ht2⟩
      have hpq : p.1 = q.1 := by
        rcases strLt_cases p.1 q.1 with hlt | he | hgt
        · exfalso
          have hp := h p.1
          simp only [mapLookup, if_pos rfl] at hp
          rw [if_neg (Ne.symm (strLt_ne hlt))] at hp
          rw [mapLookup_none_of_forall_gt t2 p.1
            (fun x hx => strLt_trans hlt (hh2 x hx))] at hp
          exact Option.noConfusion hp
        · exact he
        · exfalso
          have hq := h q.1
          simp only [mapLookup, if_pos rfl] at hq
          rw [if_neg (Ne.symm (strLt_ne hgt))] at hq
          rw [mapLookup_none_of_forall_gt t1 q.1
            (fun x hx => strLt_trans hgt (hh1 x hx))] at hq
          exact Option.noConfusion hq.symm
      have hv : p.2 = q.2 := by
        have hp := h p.1
        simp only [mapLookup, if_pos rfl] at hp
        rw [if_pos hpq.symm] at hp
        exact Option.some.inj hp
      have htails : ∀ k, mapLookup t1 k = mapLookup t2 k := by
        intro k
        by_cases hk : p.1 = k
        · rw [← hk]
          rw [mapLookup_none_of_forall_gt t1 p.1 (fun x hx => hh1 x hx),
            mapLookup_none_of_forall_gt t2 p.1 (fun x hx => hpq ▸ hh2 x hx)]
        · have hx := h k
          simp only [mapLookup] at hx
          rw [if_neg hk, if_neg (hpq ▸ hk)] at hx
          exact hx
      have heq : p = q := Prod.ext hpq hv
      rw [heq, ih t2 ht1 ht2 htails]

theorem mapInsert_comm (m : List (String × String)) (k1 v1 k2 v2 : String)
    (hs : List.Pairwise keyLt m) (h : k1 ≠ k2) :
    mapInsert (mapInsert m k1 v1) k2 v2 = mapInsert (mapInsert m k2 v2) k1 v1 := by
  apply sorted_lookup_ext
  · exact mapInsert_pairwise _ k2 v2 (mapInsert_pairwise m k1 v1 hs)
  · exact mapInsert_pairwise _ k1 v1 (mapInsert_pairwise m k2 v2 hs)
  · intro k
    rw [mapLookup_insert, mapLookup_insert, mapLookup_insert, mapLookup_insert]
    by_cases e1 : k1 = k <;> by_cases e2 : k2 = k
    · exact absurd (e1.trans e2.symm) h
    · simp [e1, e2]
    · simp [e1, e2]
    · simp [e1, e2]

theorem mem_eraseRange (a b : String) (m : List (String × String)) (x : String × String)
    (h : x ∈ eraseRange a b m) : x ∈ m := by
  induction m with
  | nil => exact h
  | cons p t ih =>
    simp only [eraseRange] at h
    by_cases hp : (strLe a p.1 && strLt p.1 b) = true
    · rw [if_pos hp] at h
      exact List.mem_cons_of_mem p (ih h)
    · rw [if_neg hp] at h
      rcases List.mem_cons.mp h with h' | h'
      · exact h' ▸ List.mem_cons_self p t
      · exact List.mem_cons_of_mem p (ih h')

theorem eraseRange_pairwise (a b : String) (m : List (String × String))
    (hs : List.Pairwise keyLt m) : List.Pairwise keyLt (eraseRange a b m) := by
  induction m with
  | nil => exact hs
  | cons p t ih =>
    rcases List.pairwise_cons.mp hs with ⟨hhead, htail⟩
    simp only [eraseRange]
    by_cases hp : (strLe a p.1 && strLt p.1 b) = true
    · rw [if_pos hp]
      exact ih htail
    · rw [if_neg hp]
      exact List.pairwise_cons.mpr
        ⟨fun x hx => hhead x (mem_eraseRange a b t x hx), ih htail⟩

theorem mapLookup_eraseRange_inside (a b : String) (m : List (String × String))
    (k : String) (h : (strLe a k && strLt k b) = true) :
    mapLookup (eraseRange a b m) k = none := by
  induction m with
  | nil => rfl
  | cons p t ih =>
    simp only [eraseRange]
    by_cases hp : (strLe a p.1 && strLt p.1 b) = true
    · rw [if_pos hp]
      exact ih
    · rw [if_neg hp]
      simp only [mapLookup]
      rw [if_neg (fun he : p.1 = k => hp (he.symm ▸ h))]
      exact ih

theorem mapLookup_eraseRange_outside (a b : String) (m : List (String × String))
    (k : String) (h : ¬((strLe a k && strLt k b) = true)) :
    mapLookup (eraseRange a b m) k = mapLookup m k := by
  induction m with
  | nil => rfl
  | cons p t ih =>
    simp only [eraseRange]
    by_cases hp : (strLe a p.1 && strLt p.1 b) = true
    · rw [if_pos hp]
      simp only [mapLookup]
      rw [if_neg (fun he : p.1 = k => h (he ▸ hp))]
      exact ih
    · rw [if_neg hp]
      simp only [mapLookup]
      by_cases he : p.1 = k
      · rw [if_pos he, if_pos he]
      · rw [if_neg he, if_neg he]
        exact ih

theorem bool_ne_true {b : Bool} (h : b = false) : ¬(b = true) := by simp [h]

/-! ### Sortedness and materialization lemmas -/

theorem sortedByKeyB_pairwise : ∀ l, sortedByKeyB l = true → List.Pairwise keyLt l := by
  intro l
  induction l with
  | nil => intro _; exact List.Pairwise.nil
  | cons p t ih =>
    intro h
    cases t with
    | nil => exact List.pairwise_singleton keyLt p
    | cons q t' =>
      simp only [sortedByKeyB, Bool.and_eq_true] at h
      rcases h with ⟨ha, hb⟩
      have hp := ih hb
      refine List.pairwise_cons.mpr ⟨?_, hp⟩
      intro x hx
      rcases List.mem_cons.mp hx with h1 | h1
      · show strLt p.1 x.1 = true
        rw [h1]
        exact ha
      · exact strLt_trans ha (List.rel_of_pairwise_cons hp h1)

theorem pairwise_sortedByKeyB : ∀ l, List.Pairwise keyLt l → sortedByKeyB l = true := by
  intro l
  induction l with
  | nil => intro _; rfl
  | cons p t ih =>
    intro h
    cases t with
    | nil => rfl
    | cons q t' =>
      rcases List.pairwise_cons.mp h with ⟨hhead, htail⟩
      simp only [sortedByKeyB, Bool.and_eq_true]
      exact ⟨hhead q (List.mem_cons_self q t'), ih htail⟩

theorem mapInsert_append_gt (m : List (String × String)) (k v : String)
    (hgt : ∀ x ∈ m, strLt x.1 k = true) : mapInsert m k v = m ++ [(k, v)] := by
  induction m with
  | nil => rfl
  | cons p t ih =>
    have hpk : strLt p.1 k = true := hgt p (List.mem_cons_self p t)
    simp only [mapInsert]
    rw [if_neg (bool_ne_true (strLt_asymm hpk)), if_neg (Ne.symm (strLt_ne hpk))]
    rw [ih (fun x hx => hgt x (List.mem_cons_of_mem p hx))]
    rfl

theorem foldl_insert_sorted : ∀ (raw m : List (String × String)),
    List.Pairwise keyLt (m ++ raw) →
    raw.foldl (fun acc p => mapInsert acc p.1 p.2) m = m ++ raw := by
  intro raw
  induction raw with
  | nil =>
    intro m _
    simp
  | cons p t ih =>
    intro m h
    rw [List.foldl_cons]
    have hgt : ∀ x ∈ m, strLt x.1 p.1 = true := by
      intro x hx
      exact (List.pairwise_append.mp h).2.2 x hx p (List.mem_cons_self p t)
    have hins : mapInsert m p.1 p.2 = m ++ [p] := by
      rw [mapInsert_append_gt m p.1 p.2 hgt]
    rw [hins, ih (m ++ [p]) (by rw [List.append_assoc]; simpa using h)]
    rw [List.append_assoc]
    simp

theorem materialize_sorted_eq (raw : List (String × String))
    (hs : List.Pairwise keyLt raw) : materialize raw = raw := by
  have := foldl_insert_sorted raw [] (by simpa using hs)
  simpa [materialize] using this

theorem foldl_mapInsert_pairwise : ∀ (l m : List (String × String)),
    List.Pairwise keyLt m →
    List.Pairwise keyLt (l.foldl (fun acc p => mapInsert acc p.1 p.2) m) := by
  intro l
  induction l with
  | nil => intro m h; simpa
  | cons p t ih =>
    intro m h
    rw [List.foldl_cons]
    exact ih _ (mapInsert_pairwise m p.1 p.2 h)

theorem materialize_pairwise (raw : List (String × String)) :
    List.Pairwise keyLt (materialize raw) :=
  foldl_mapInsert_pairwise raw [] List.Pairwise.nil

theorem rawGet_eq_mapLookup (raw : List (String × String)) (k : String)
    (hs : List.Pairwise keyLt raw) : rawGet raw k = mapLookup raw k := by
  induction raw with
  | nil => rfl
  | cons p t ih =>
    rcases List.pairwise_cons.mp hs with ⟨hhead, htail⟩
    by_cases h1 : strLt p.1 k = true
    · have hstep : rawGet (p :: t) k = rawGet t k := by
        simp only [rawGet, lowerBoundKV]
        rw [if_pos h1]
      rw [hstep, ih htail]
      simp only [mapLookup]
      rw [if_neg (strLt_ne h1)]
    · have hstep : rawGet (p :: t) k = if p.1 == k then some p.2 else none := by
        simp only [rawGet, lowerBoundKV]
        rw [if_neg h1]
      rw [hstep]
      simp only [mapLookup]
      by_cases h2 : p.1 = k
      · simp [h2]
      · have hk : strLt k p.1 = true :=
          strLt_of_not_of_ne (Bool.eq_false_iff.mpr h1) (fun he => h2 he)
        rw [mapLookup_none_of_forall_gt t k
          (fun q hq => strLt_trans hk (hhead q hq))]
        simp [h2]

/-! ### State-level store lemmas -/

theorem makeMutable_fields (s : DBState) :
    (makeConfigurationMutable s).fields = s.fields := by
  cases h : s.mutableConfiguration <;> simp [makeConfigurationMutable, h]

theorem makeMutable_knobs (s : DBState) :
    (makeConfigurationMutable s).knobs = s.knobs := by
  cases h : s.mutableConfiguration <;> simp [makeConfigurationMutable, h]

theorem makeMutable_overlay (s : DBState) :
    (makeConfigurationMutable s).mutableConfiguration = some (currentOverlay s) := by
  cases h : s.mutableConfiguration <;> simp [makeConfigurationMutable, currentOverlay, h]

theorem currentOverlay_makeMutable (s : DBState) :
    currentOverlay (makeConfigurationMutable s) = currentOverlay s := by
  cases h : s.mutableConfiguration <;> simp [makeConfigurationMutable, currentOverlay, h]

theorem currentOverlay_pairwise (s : DBState) (h : StoreWF s = true) :
    List.Pairwise keyLt (currentOverlay s) := by
  cases hm : s.mutableConfiguration with
  | none =>
    simp only [currentOverlay, hm]
    exact materialize_pairwise _
  | some m =>
    simp only [currentOverlay, hm]
    simp only [StoreWF, hm, Bool.and_eq_true] at h
    exact sortedByKeyB_pairwise m h.2

theorem overlayLookup_eq_dcGet (s : DBState) (h : StoreWF s = true) (k : String) :
    mapLookup (currentOverlay s) k = dcGet s k := by
  cases hm : s.mutableConfiguration with
  | none =>
    have hraw : List.Pairwise keyLt s.rawConfiguration := by
      simp only [StoreWF, hm, Bool.and_eq_true] at h
      exact sortedByKeyB_pairwise _ h.1
    simp only [currentOverlay, dcGet, hm]
    rw [materialize_sorted_eq _ hraw, rawGet_eq_mapLookup _ _ hraw]
  | some m =>
    simp [currentOverlay, dcGet, hm]

theorem makeMutable_StoreWF (s : DBState) (h : StoreWF s = true) :
    StoreWF (makeConfigurationMutable s) = true := by
  cases hm : s.mutableConfiguration with
  | none =>
    simp only [makeConfigurationMutable, hm, StoreWF, Bool.and_eq_true]
    exact ⟨rfl, pairwise_sortedByKeyB _ (materialize_pairwise _)⟩
  | some m =>
    simp only [makeConfigurationMutable, hm]
    exact h

theorem dcSet_ok_parts (s : DBState) (k v : String) (b : Bool) (s' : DBState)
    (hok : dcSet s k v = Except.ok (b, s')) :
    setInternal s.fields k v = Except.ok (b, s'.fields) ∧
    s'.knobs = s.knobs ∧
    s'.mutableConfiguration = some (mapInsert (currentOverlay s) k v) := by
  simp only [dcSet] at hok
  cases hset : setInternal (makeConfigurationMutable s).fields k v with
  | error e =>
    rw [hset] at hok
    exact absurd hok (by simp)
  | ok p =>
    obtain ⟨b0, f0⟩ := p
    rw [hset] at hok
    simp only [Except.ok.injEq, Prod.mk.injEq] at hok
    obtain ⟨hb, hs'⟩ := hok
    subst hb
    subst hs'
    rw [makeMutable_fields] at hset
    refine ⟨hset, ?_, ?_⟩
    · simp [makeMutable_knobs]
    · simp [currentOverlay_makeMutable]

theorem dcSet_StoreWF (s : DBState) (k v : String) (b : Bool) (s' : DBState)
    (hwf : StoreWF s = true) (hok : dcSet s k v = Except.ok (b, s')) :
    StoreWF s' = true := by
  simp only [dcSet] at hok
  cases hset : setInternal (makeConfigurationMutable s).fields k v with
  | error e =>
    rw [hset] at hok
    exact absurd hok (by simp)
  | ok p =>
    obtain ⟨b0, f0⟩ := p
    rw [hset] at hok
    simp only [Except.ok.injEq, Prod.mk.injEq] at hok
    obtain ⟨hb, hs'⟩ := hok
    subst hs'
    have hmm := makeMutable_StoreWF s hwf
    simp only [StoreWF] at hmm ⊢
    rw [Bool.and_eq_true] at hmm ⊢
    refine ⟨hmm.1, ?_⟩
    rw [currentOverlay_makeMutable]
    exact pairwise_sortedByKeyB _
      (mapInsert_pairwise _ k v (currentOverlay_pairwise s hwf))

theorem dcGet_dcSet (s : DBState) (k v : String) (b : Bool) (s' : DBState)
    (hwf : StoreWF s = true) (hok : dcSet s k v = Except.ok (b, s')) (k' : String) :
    dcGet s' k' = if k = k' then some v else dcGet s k' := by
  rcases dcSet_ok_parts s k v b s' hok with ⟨_, _, hov⟩
  simp only [dcGet, hov]
  rw [mapLookup_insert]
  by_cases h : k = k'
  · rw [if_pos h, if_pos h]
  · rw [if_neg h, if_neg h]
    exact overlayLookup_eq_dcGet s hwf k'

theorem dcClear_ok_parts (s : DBState) (a b : String) (bb : Bool) (s' : DBState)
    (hok : dcClear s a b = Except.ok (bb, s')) :
    reparse s.knobs (eraseRange a b (currentOverlay s)) = Except.ok s'.fields ∧
    bb = (isValid s.fields && !(isValid s'.fields)) ∧
    s'.knobs = s.knobs ∧
    s'.mutableConfiguration = some (eraseRange a b (currentOverlay s)) := by
  simp only [dcClear, makeMutable_knobs, makeMutable_fields, currentOverlay_makeMutable] at hok
  cases hrp : reparse s.knobs (eraseRange a b (currentOverlay s)) with
  | error e =>
    rw [hrp] at hok
    exact absurd hok (by simp)
  | ok f =>
    rw [hrp] at hok
    simp only [Except.ok.injEq, Prod.mk.injEq] at hok
    obtain ⟨hb, hs'⟩ := hok
    subst hs'
    refine ⟨by simp [hrp], by simp [hb], ?_, ?_⟩
    · simp [makeMutable_knobs]
    · simp [currentOverlay_makeMutable]

/-! ### Frame and sequencing lemmas for `set`/`clear` -/

theorem applySets_StoreWF : ∀ (l : List (String × String)) (s s' : DBState),
    StoreWF s = true → applySets s l = Except.ok s' → StoreWF s' = true := by
  intro l
  induction l with
  | nil =>
    intro s s' hwf h
    simp only [applySets, Except.ok.injEq] at h
    exact h ▸ hwf
  | cons p t ih =>
    intro s s' hwf h
    simp only [applySets] at h
    cases hset : dcSet s p.1 p.2 with
    | error e =>
      rw [hset] at h
      exact absurd h (by simp)
    | ok q =>
      obtain ⟨b0, s1⟩ := q
      rw [hset] at h
      exact ih s1 s' (dcSet_StoreWF s p.1 p.2 b0 s1 hwf hset) h

theorem applySets_frame : ∀ (l : List (String × String)) (s s' : DBState) (k : String),
    StoreWF s = true → k ∉ l.map Prod.fst → applySets s l = Except.ok s' →
    dcGet s' k = dcGet s k := by
  intro l
  induction l with
  | nil =>
    intro s s' k _ _ h
    simp only [applySets, Except.ok.injEq] at h
    rw [← h]
  | cons p t ih =>
    intro s s' k hwf hnm h
    simp only [applySets] at h
    cases hset : dcSet s p.1 p.2 with
    | error e =>
      rw [hset] at h
      exact absurd h (by simp)
    | ok q =>
      obtain ⟨b0, s1⟩ := q
      rw [hset] at h
      simp only [List.map_cons, List.mem_cons] at hnm
      push_neg at hnm
      rw [ih s1 s' k (dcSet_StoreWF s p.1 p.2 b0 s1 hwf hset) hnm.2 h]
      rw [dcGet_dcSet s p.1 p.2 b0 s1 hwf hset k]
      rw [if_neg (fun he : p.1 = k => hnm.1 he.symm)]

/-- C2: for every key range and every configuration state, a returning `clear`
reports `true` exactly when the typed fields were valid immediately before the
clear and invalid immediately after it, and the post-clear typed fields are
obtained by resetting every field to its default and re-parsing every
remaining overlay pair (the remaining pairs standing in ascending key order
for a well-formed store). -/
theorem c2_clear_validity_and_replay (s : DBState) (a b : String) (bb : Bool)
    (s' : DBState) (hok : dcClear s a b = Except.ok (bb, s')) :
    (bb = true ↔ (isValid s.fields = true ∧ isValid s'.fields = false)) ∧
    s'.mutableConfiguration = some (eraseRange a b (currentOverlay s)) ∧
    reparse s.knobs (eraseRange a b (currentOverlay s)) = Except.ok s'.fields ∧
    (StoreWF s = true → List.Pairwise keyLt (eraseRange a b (currentOverlay s))) := by
  rcases dcClear_ok_parts s a b bb s' hok with ⟨hrp, hb, _, hov⟩
  refine ⟨?_, hov, hrp, ?_⟩
  · subst hb
    simp [Bool.and_eq_true, Bool.not_eq_true']
  · intro hwf
    exact eraseRange_pairwise a b _ (currentOverlay_pairwise s hwf)

/-- Concrete post-clear state for the C2 witness. -/
def c2ClearedState : DBState := ⟨⟨3, 1, 3⟩, resetInternal ⟨3, 1, 3⟩, [], some []⟩

theorem c2_clear_validity_and_replay_witness :
    (false = true ↔ (isValid (initState ⟨3, 1, 3⟩).fields = true ∧
      isValid c2ClearedState.fields = false)) ∧
    c2ClearedState.mutableConfiguration =
      some (eraseRange "a" "b" (currentOverlay (initState ⟨3, 1, 3⟩))) ∧
    reparse (initState ⟨3, 1, 3⟩).knobs
      (eraseRange "a" "b" (currentOverlay (initState ⟨3, 1, 3⟩))) =
      Except.ok c2ClearedState.fields ∧
    (StoreWF (initState ⟨3, 1, 3⟩) = true →
      List.Pairwise keyLt (eraseRange "a" "b" (currentOverlay (initState ⟨3, 1, 3⟩)))) :=
  c2_clear_validity_and_replay (initState ⟨3, 1, 3⟩) "a" "b" false c2ClearedState rfl

/-- C3: after `clear([a,b))`, a get of any key inside the range is absent and
a get of any key outside the range returns exactly what it returned before
the clear. -/
theorem c3_clear_frame (s : DBState) (a b k : String) (bb : Bool) (s' : DBState)
    (hwf : StoreWF s = true) (hok : dcClear s a b = Except.ok (bb, s')) :
    ((strLe a k && strLt k b) = true → dcGet s' k = none) ∧
    (¬((strLe a k && strLt k b) = true) → dcGet s' k = dcGet s k) := by
  rcases dcClear_ok_parts s a b bb s' hok with ⟨_, _, _, hov⟩
  constructor
  · intro hin
    simp only [dcGet, hov]
    exact mapLookup_eraseRange_inside a b _ k hin
  · intro hout
    simp only [dcGet, hov]
    rw [mapLookup_eraseRange_outside a b _ k hout]
    exact overlayLookup_eq_dcGet s hwf k

/-- Concrete pre-clear state for the C3 witness. -/
def c3StartState : DBState := ⟨⟨2, 1, 2⟩, resetInternal ⟨2, 1, 2⟩, [("b", "1")], none⟩

/-- Concrete post-clear state for the C3 witness. -/
def c3ClearedState : DBState := ⟨⟨2, 1, 2⟩, resetInternal ⟨2, 1, 2⟩, [], some []⟩

theorem c3_clear_frame_witness :
    dcGet c3ClearedState "b" = none ∧ dcGet c3ClearedState "x" = dcGet c3StartState "x" :=
  ⟨(c3_clear_frame c3StartState "a" "c" "b" false c3ClearedState rfl rfl).1 (by decide),
   (c3_clear_frame c3StartState "a" "c" "x" false c3ClearedState rfl rfl).2 (by decide)⟩

/-- C4: after a sequence of `set` edits with pairwise distinct keys, `get`
returns for each key of the sequence exactly the value written for it. -/
theorem c4_set_get_roundtrip : ∀ (l : List (String × String)) (s s' : DBState),
    StoreWF s = true → l.Pairwise (fun p q => p.1 ≠ q.1) →
    applySets s l = Except.ok s' → ∀ kv ∈ l, dcGet s' kv.1 = some kv.2 := by
  intro l
  induction l with
  | nil =>
    intro s s' _ _ _ kv hkv
    exact absurd hkv (List.not_mem_nil kv)
  | cons p t ih =>
    intro s s' hwf hpw h kv hkv
    simp only [applySets] at h
    cases hset : dcSet s p.1 p.2 with
    | error e =>
      rw [hset] at h
      exact absurd h (by simp)
    | ok q =>
      obtain ⟨b0, s1⟩ := q
      rw [hset] at h
      have hwf1 := dcSet_StoreWF s p.1 p.2 b0 s1 hwf hset
      rcases List.pairwise_cons.mp hpw with ⟨hhead, htail⟩
      rcases List.mem_cons.mp hkv with h1 | h1
      · subst h1
        have hnm : kv.1 ∉ t.map Prod.fst := by
          intro hmem
          rcases List.mem_map.mp hmem with ⟨q', hq', he⟩
          exact hhead q' hq' he.symm
        rw [applySets_frame t s1 s' kv.1 hwf1 hnm h]
        rw [dcGet_dcSet s kv.1 kv.2 b0 s1 hwf hset kv.1, if_pos rfl]
      · exact ih s1 s' hwf1 htail h kv h1

/-- Concrete final state for the C4 witness. -/
def c4FinalState : DBState :=
  ⟨⟨3, 1, 3⟩, { resetInternal ⟨3, 1, 3⟩ with desiredTLogCount := 5 }, [],
   some [("x", "1"), (configKeysPfx ++ "logs", "5")]⟩

theorem c4_set_get_roundtrip_witness :
    dcGet c4FinalState (configKeysPfx ++ "logs") = some "5" ∧
    dcGet c4FinalState "x" = some "1" := by
  have h := c4_set_get_roundtrip
    [(configKeysPfx ++ "logs", "5"), ("x", "1")]
    (initState ⟨3, 1, 3⟩) c4FinalState rfl (by decide) rfl
  exact ⟨h (configKeysPfx ++ "logs", "5") (by simp),
         h ("x", "1") (by simp)⟩

/-- A fully-populated configuration satisfying every §3 invariant but with an
auto proxy default of 0. -/
def c10Example : ConfigFields :=
  { resetInternal ⟨3, 1, 3⟩ with
    initialized := true
    masterProxyCount := 5
    resolverCount := 5
    desiredTLogCount := 5
    tLogWriteAntiQuorum := 0
    tLogReplicationFactor := 3
    durableStorageQuorum := 3
    storageTeamSize := 3
    tLogDataStoreType := .MEMORY
    storageServerStoreType := .MEMORY
    autoMasterProxyCount := 0
    autoResolverCount := 1
    autoDesiredTLogCount := 1
    tLogPolicy := some (.policyAcross 3 "zoneid" .policyOne)
    storagePolicy := some (.policyAcross 3 "zoneid" .policyOne) }

/-- C10: `isValid` is false whenever one of the auto defaults is below 1 —
unconditionally, even on a configuration whose explicit desired counts are
all at least 1 and which satisfies every invariant of the spec's data-model
section (`specInvariants`). -/
theorem c10_auto_defaults_gate_validity :
    (∀ c : ConfigFields,
      (c.autoMasterProxyCount < 1 ∨ c.autoResolverCount < 1 ∨
        c.autoDesiredTLogCount < 1) → isValid c = false) ∧
    (specInvariants c10Example = true ∧ isValid c10Example = false) := by
  constructor
  · intro c h
    cases hb : isValid c
    · rfl
    · exfalso
      simp only [isValid, Bool.and_eq_true, decide_eq_true_eq] at hb
      rcases h with h | h | h <;> omega
  · exact ⟨by decide, by decide⟩

theorem c10_auto_defaults_gate_validity_witness : isValid c10Example = false :=
  c10_auto_defaults_gate_validity.1 c10Example (Or.inl (by decide))

/-- An initialized configuration with no policies set. -/
def c9Example : ConfigFields :=
  { resetInternal ⟨3, 1, 3⟩ with
    initialized := true
    tLogPolicy := some RepPolicy.policyOne
    storagePolicy := some RepPolicy.policyOne }

/-- C9: when initialized, `toMap` reads the two policy signatures before any
classification, so it is defined (no null dereference) exactly when both
`tLogPolicy` and `storagePolicy` are present; and that precondition can be
violated through the public interface — a single `set` of the initialized
marker yields an initialized configuration whose `toMap` is undefined. -/
theorem c9_toMap_policy_dereference :
    (∀ c : ConfigFields, c.initialized = true →
      ((toMap c).isSome ↔ (c.tLogPolicy.isSome ∧ c.storagePolicy.isSome))) ∧
    (∃ b s', dcSet (initState ⟨3, 1, 3⟩) (configKeysPfx ++ "initialized") "1" =
        Except.ok (b, s') ∧ s'.fields.initialized = true ∧ toMap s'.fields = none) := by
  constructor
  · intro c hinit
    rw [toMap, if_pos hinit]
    cases ht : c.tLogPolicy <;> cases hs : c.storagePolicy <;> simp
  · exact ⟨true, _, rfl, rfl, rfl⟩

theorem c9_toMap_policy_dereference_witness :
    (toMap c9Example).isSome ↔ (c9Example.tLogPolicy.isSome ∧ c9Example.storagePolicy.isSome) :=
  c9_toMap_policy_dereference.1 c9Example rfl

/-- Initialized configuration with `logs` unset but `remote_logs` and
`satellite_logs` counts explicitly set. -/
def c5StateA : ConfigFields :=
  { resetInternal ⟨3, 1, 3⟩ with
    initialized := true
    tLogPolicy := some (.policyAcross 3 "zoneid" .policyOne)
    storagePolicy := some (.policyAcross 3 "zoneid" .policyOne)
    remoteDesiredTLogCount := 5
    satelliteDesiredTLogCount := 7 }

/-- Initialized configuration with `logs` set but `remote_logs` unset. -/
def c5StateB : ConfigFields :=
  { resetInternal ⟨3, 1, 3⟩ with
    initialized := true
    tLogPolicy := some (.policyAcross 3 "zoneid" .policyOne)
    storagePolicy := some (.policyAcross 3 "zoneid" .policyOne)
    desiredTLogCount := 2 }

/-- C5 (evaluation at the failing inputs): with `desiredTLogCount = -1` the
canonical map omits `remote_logs`/`satellite_logs` even though their own
desired counts are explicitly set, and with `desiredTLogCount = 2` it
contains `remote_logs` mapped to `"-1"` even though the remote count is
unset — the source gates all three log passthrough keys on
`desiredTLogCount`. (`proxies`/`resolvers` behave per their own counts.) -/
theorem c5_passthrough_gating_bug :
    (toMap c5StateA).isSome = true ∧
    lookupToMap c5StateA "remote_logs" = none ∧
    lookupToMap c5StateA "satellite_logs" = none ∧
    lookupToMap c5StateB "remote_logs" = some "-1" ∧
    lookupToMap c5StateB "satellite_logs" = some "-1" ∧
    lookupToMap c5StateB "logs" = some "2" ∧
    lookupToMap c5StateB "proxies" = none := by
  decide

/-- Initialized configuration with two present satellite datacenters on each
side. -/
def c6State : ConfigFields :=
  { resetInternal ⟨3, 1, 3⟩ with
    initialized := true
    tLogPolicy := some RepPolicy.policyOne
    storagePolicy := some RepPolicy.policyOne
    primarySatelliteDcIds := [some "a", some "b"]
    remoteSatelliteDcIds := [some "c", some "d"] }

/-- C6 (evaluation at the failing input): the satellite-dc rendering loop
never emits the comma separator (its `first` flag is only cleared inside the
branch requiring it to be already cleared), so two present entries render
concatenated — `"ab"`, not the comma-joined `"a,b"` the claim requires. -/
theorem c6_satellite_dcs_join_bug :
    lookupToMap c6State "primary_satellite_dcs" = some "ab" ∧
    lookupToMap c6State "remote_satellite_dcs" = some "cd" ∧
    renderDcIds [some "a", some "b"] = "ab" ∧
    ("ab" : String) ≠ "a,b" := by
  decide

/-- C7 (evaluation at the failing input): the dc-list parser passes the comma
index as the slice *size* (`substr(lastBegin, i)`), so from the second comma
on the produced element overruns its segment: `"a,b,c"` parses to
`["a", "b,c", "c"]` instead of the spec split `["a", "b", "c"]`; inputs with
at most one comma agree with the spec split. -/
theorem c7_dc_split_bug :
    parseDcList "a,b,c" = [some "a", some "b,c", some "c"] ∧
    specSplitDcs "a,b,c" = [some "a", some "b", some "c"] ∧
    parseDcList "a,b,c" ≠ specSplitDcs "a,b,c" ∧
    parseDcList "a,b" = specSplitDcs "a,b" ∧
    parseDcList "" = specSplitDcs "" := by
  decide

/-! ### The C1 scenario: populate, classify, clear -/

/-- The population of the C1 scenario: the initialized marker, the four
replication counts, and both store engines, all through the public `set`. -/
def c1Sets : List (String × String) :=
  [(configKeysPfx ++ "initialized", "1"),
   (configKeysPfx ++ "log_replicas", "3"),
   (configKeysPfx ++ "log_anti_quorum", "0"),
   (configKeysPfx ++ "storage_quorum", "3"),
   (configKeysPfx ++ "storage_replicas", "3"),
   (configKeysPfx ++ "log_engine", "1"),
   (configKeysPfx ++ "storage_engine", "1")]

/-- The C1 configuration: fresh state, the `c1Sets` edits, then the default
zone-based policies. -/
def c1Populated (kn : Knobs) : Option DBState :=
  (applySets (initState kn) c1Sets).toOption.map
    (fun s => { s with fields := setDefaultReplicationPolicy s.fields })

/-- The state `c1Populated` reaches, written out. -/
def c1PopulatedState (kn : Knobs) : DBState :=
  ⟨kn,
   { resetInternal kn with
     initialized := true
     tLogWriteAntiQuorum := 0
     tLogReplicationFactor := 3
     durableStorageQuorum := 3
     storageTeamSize := 3
     tLogDataStoreType := .MEMORY
     storageServerStoreType := .MEMORY
     tLogPolicy := some (.policyAcross 3 "zoneid" .policyOne)
     storagePolicy := some (.policyAcross 3 "zoneid" .policyOne) },
   [],
   some [(configKeysPfx ++ "initialized", "1"),
         (configKeysPfx ++ "log_anti_quorum", "0"),
         (configKeysPfx ++ "log_engine", "1"),
         (configKeysPfx ++ "log_replicas", "3"),
         (configKeysPfx ++ "storage_engine", "1"),
         (configKeysPfx ++ "storage_quorum", "3"),
         (configKeysPfx ++ "storage_replicas", "3")]⟩

/-- First key of the cleared range: the `storage_replicas` key itself. -/
def c1ClearBegin : String := configKeysPfx ++ "storage_replicas"

/-- One-past end of the cleared range: the key after `storage_replicas`. -/
def c1ClearEnd : String := configKeysPfx ++ "storage_replicas\x00"

/-- The state after clearing the `storage_replicas` key: `storageTeamSize`
back to -1 and, the policies not being stored keys, no policies. -/
def c1ClearedState (kn : Knobs) : DBState :=
  ⟨kn,
   { resetInternal kn with
     initialized := true
     tLogWriteAntiQuorum := 0
     tLogReplicationFactor := 3
     durableStorageQuorum := 3
     tLogDataStoreType := .MEMORY
     storageServerStoreType := .MEMORY },
   [],
   some [(configKeysPfx ++ "initialized", "1"),
         (configKeysPfx ++ "log_anti_quorum", "0"),
         (configKeysPfx ++ "log_engine", "1"),
         (configKeysPfx ++ "log_replicas", "3"),
         (configKeysPfx ++ "storage_engine", "1"),
         (configKeysPfx ++ "storage_quorum", "3")]⟩

/-- C1: on a configuration populated with replication factor 3, storage
quorum 3, team size 3, anti-quorum 0, the initialized marker, store engines
and the default zone policies (under auto defaults of at least 1), `isValid`
is true and the canonical map classifies `redundancy_mode` as `triple`;
clearing the range holding only the `storage_replicas` key then resets
`storageTeamSize` to -1 and that `clear` returns `true`. -/
theorem c1_validity_transition (kn : Knobs)
    (hp : 1 ≤ kn.defaultAutoProxies) (hr : 1 ≤ kn.defaultAutoResolvers)
    (hl : 1 ≤ kn.defaultAutoLogs) :
    c1Populated kn = some (c1PopulatedState kn) ∧
    isValid (c1PopulatedState kn).fields = true ∧
    lookupToMap (c1PopulatedState kn).fields "redundancy_mode" = some "triple" ∧
    dcClear (c1PopulatedState kn) c1ClearBegin c1ClearEnd =
      Except.ok (true, c1ClearedState kn) ∧
    (c1ClearedState kn).fields.storageTeamSize = -1 ∧
    isValid (c1ClearedState kn).fields = false := by
  have hvalid : isValid (c1PopulatedState kn).fields = true := by
    simp [isValid, c1PopulatedState, resetInternal, getDesiredProxies,
      getDesiredResolvers, getDesiredLogs, getDesiredRemoteLogs,
      getDesiredSatelliteLogs, getDesiredLogRouters, hp, hr, hl]
  have hinv : isValid (c1ClearedState kn).fields = false := rfl
  have hceq : dcClear (c1PopulatedState kn) c1ClearBegin c1ClearEnd =
      Except.ok (isValid (c1PopulatedState kn).fields &&
        !(isValid (c1ClearedState kn).fields), c1ClearedState kn) := rfl
  refine ⟨rfl, hvalid, rfl, ?_, rfl, hinv⟩
  rw [hceq, hvalid, hinv]
  rfl

theorem c1_validity_transition_witness :
    c1Populated ⟨3, 1, 3⟩ = some (c1PopulatedState ⟨3, 1, 3⟩) ∧
    isValid (c1PopulatedState ⟨3, 1, 3⟩).fields = true ∧
    lookupToMap (c1PopulatedState ⟨3, 1, 3⟩).fields "redundancy_mode" = some "triple" ∧
    dcClear (c1PopulatedState ⟨3, 1, 3⟩) c1ClearBegin c1ClearEnd =
      Except.ok (true, c1ClearedState ⟨3, 1, 3⟩) ∧
    (c1ClearedState ⟨3, 1, 3⟩).fields.storageTeamSize = -1 ∧
    isValid (c1ClearedState ⟨3, 1, 3⟩).fields = false :=
  c1_validity_transition ⟨3, 1, 3⟩ (by decide) (by decide) (by decide)

/-! ### Commutation of distinct-key edits -/

theorem tableLookup_some (ck : String) (sl : CfgSlot) (h : tableLookup ck = some sl) :
    ck = slotKey sl := by
  rw [tableLookup] at h
  by_cases e1 : ck = "initialized"
  · rw [if_pos e1] at h
    injection h with h2
    subst h2
    exact e1
  rw [if_neg e1] at h
  by_cases e2 : ck = "proxies"
  · rw [if_pos e2] at h
    injection h with h2
    subst h2
    exact e2
  rw [if_neg e2] at h
  by_cases e3 : ck = "resolvers"
  · rw [if_pos e3] at h
    injection h with h2
    subst h2
    exact e3
  rw [if_neg e3] at h
  by_cases e4 : ck = "logs"
  · rw [if_pos e4] at h
    injection h with h2
    subst h2
    exact e4
  rw [if_neg e4] at h
  by_cases e5 : ck = "log_replicas"
  · rw [if_pos e5] at h
    injection h with h2
    subst h2
    exact e5
  rw [if_neg e5] at h
  by_cases e6 : ck = "log_anti_quorum"
  · rw [if_pos e6] at h
    injection h with h2
    subst h2
    exact e6
  rw [if_neg e6] at h
  by_cases e7 : ck = "storage_quorum"
  · rw [if_pos e7] at h
    injection h with h2
    subst h2
    exact e7
  rw [if_neg e7] at h
  by_cases e8 : ck = "storage_replicas"
  · rw [if_pos e8] at h
    injection h with h2
    subst h2
    exact e8
  rw [if_neg e8] at h
  by_cases e9 : ck = "log_engine"
  · rw [if_pos e9] at h
    injection h with h2
    subst h2
    exact e9
  rw [if_neg e9] at h
  by_cases e10 : ck = "storage_engine"
  · rw [if_pos e10] at h
    injection h with h2
    subst h2
    exact e10
  rw [if_neg e10] at h
  by_cases e11 : ck = "auto_proxies"
  · rw [if_pos e11] at h
    injection h with h2
    subst h2
    exact e11
  rw [if_neg e11] at h
  by_cases e12 : ck = "auto_resolvers"
  · rw [if_pos e12] at h
    injection h with h2
    subst h2
    exact e12
  rw [if_neg e12] at h
  by_cases e13 : ck = "auto_logs"
  · rw [if_pos e13] at h
    injection h with h2
    subst h2
    exact e13
  rw [if_neg e13] at h
  by_cases e14 : ck = "storage_replication_policy"
  · rw [if_pos e14] at h
    injection h with h2
    subst h2
    exact e14
  rw [if_neg e14] at h
  by_cases e15 : ck = "log_replication_policy"
  · rw [if_pos e15] at h
    injection h with h2
    subst h2
    exact e15
  rw [if_neg e15] at h
  by_cases e16 : ck = "remote_logs"
  · rw [if_pos e16] at h
    injection h with h2
    subst h2
    exact e16
  rw [if_neg e16] at h
  by_cases e17 : ck = "remote_log_replicas"
  · rw [if_pos e17] at h
    injection h with h2
    subst h2
    exact e17
  rw [if_neg e17] at h
  by_cases e18 : ck = "remote_log_policy"
  · rw [if_pos e18] at h
    injection h with h2
    subst h2
    exact e18
  rw [if_neg e18] at h
  by_cases e19 : ck = "satellite_log_policy"
  · rw [if_pos e19] at h
    injection h with h2
    subst h2
    exact e19
  rw [if_neg e19] at h
  by_cases e20 : ck = "satellite_logs"
  · rw [if_pos e20] at h
    injection h with h2
    subst h2
    exact e20
  rw [if_neg e20] at h
  by_cases e21 : ck = "satellite_log_replicas"
  · rw [if_pos e21] at h
    injection h with h2
    subst h2
    exact e21
  rw [if_neg e21] at h
  by_cases e22 : ck = "satellite_anti_quorum"
  · rw [if_pos e22] at h
    injection h with h2
    subst h2
    exact e22
  rw [if_neg e22] at h
  by_cases e23 : ck = "satellite_usable_dcs"
  · rw [if_pos e23] at h
    injection h with h2
    subst h2
    exact e23
  rw [if_neg e23] at h
  by_cases e24 : ck = "primary_dc"
  · rw [if_pos e24] at h
    injection h with h2
    subst h2
    exact e24
  rw [if_neg e24] at h
  by_cases e25 : ck = "remote_dc"
  · rw [if_pos e25] at h
    injection h with h2
    subst h2
    exact e25
  rw [if_neg e25] at h
  by_cases e26 : ck = "primary_satellite_dcs"
  · rw [if_pos e26] at h
    injection h with h2
    subst h2
    exact e26
  rw [if_neg e26] at h
  by_cases e27 : ck = "remote_satellite_dcs"
  · rw [if_pos e27] at h
    injection h with h2
    subst h2
    exact e27
  rw [if_neg e27] at h
  by_cases e28 : ck = "log_routers"
  · rw [if_pos e28] at h
    injection h with h2
    subst h2
    exact e28
  rw [if_neg e28] at h
  exact absurd h (by simp)

theorem removeConfPfx_some (k ck : String) (h : removeConfPfx k = some ck) :
    k = configKeysPfx ++ ck := by
  rw [removeConfPfx] at h
  split_ifs at h with hp
  rw [Option.some.injEq] at h
  rcases List.isPrefixOf_iff_prefix.mp hp with ⟨t, ht⟩
  apply strEq_of_data
  rw [← h]
  show k.data = configKeysPfx.data ++ (k.data.drop configKeysPfx.data.length)
  rw [← ht, List.drop_left]

theorem dispatch_inj (k1 k2 : String) (hne : k1 ≠ k2) (s1 s2 : CfgSlot)
    (h1 : (removeConfPfx k1).bind tableLookup = some s1)
    (h2 : (removeConfPfx k2).bind tableLookup = some s2) : s1 ≠ s2 := by
  cases hc1 : removeConfPfx k1 with
  | none => rw [hc1] at h1; exact absurd h1 (by simp)
  | some ck1 =>
    cases hc2 : removeConfPfx k2 with
    | none => rw [hc2] at h2; exact absurd h2 (by simp)
    | some ck2 =>
      rw [hc1] at h1
      rw [hc2] at h2
      simp only [Option.some_bind] at h1 h2
      intro he
      apply hne
      rw [removeConfPfx_some k1 ck1 hc1, removeConfPfx_some k2 ck2 hc2,
        tableLookup_some ck1 s1 h1, tableLookup_some ck2 s2 h2, he]

theorem slotWrite_comm (f : ConfigFields) (s1 s2 : CfgSlot) (h : s1 ≠ s2)
    (x1 x2 : SlotVal) :
    slotWrite (slotWrite f s1 x1) s2 x2 = slotWrite (slotWrite f s2 x2) s1 x1 := by
  cases s1 <;> cases s2 <;> first | rfl | exact absurd rfl h

theorem setInternal_char (f : ConfigFields) (k v : String) :
    setInternal f k v =
      match (removeConfPfx k).bind tableLookup with
      | none => Except.ok (false, f)
      | some slot =>
        match slotParse slot v with
        | .error e => Except.error e
        | .ok x => Except.ok (true, slotWrite f slot x) := by
  rw [setInternal]
  cases h1 : removeConfPfx k with
  | none => rfl
  | some ck => simp only [Option.some_bind]

/-- The field effect a single recognized edit has, separated from the store
update: `id` for unrecognized keys, otherwise the slot's parse (which may
fail) followed by its write. -/
def parseEffect (k v : String) : Except Unit (ConfigFields → ConfigFields) :=
  match (removeConfPfx k).bind tableLookup with
  | none => Except.ok id
  | some slot =>
    match slotParse slot v with
    | .error e => Except.error e
    | .ok x => Except.ok (fun f => slotWrite f slot x)

theorem parseEffect_comm (k1 v1 k2 v2 : String) (hne : k1 ≠ k2)
    (g1 g2 : ConfigFields → ConfigFields)
    (h1 : parseEffect k1 v1 = Except.ok g1) (h2 : parseEffect k2 v2 = Except.ok g2)
    (f : ConfigFields) : g2 (g1 f) = g1 (g2 f) := by
  rw [parseEffect] at h1 h2
  cases hd1 : (removeConfPfx k1).bind tableLookup with
  | none =>
    simp only [hd1, Except.ok.injEq] at h1
    rw [← h1]
    rfl
  | some s1 =>
    simp only [hd1] at h1
    cases hp1 : slotParse s1 v1 with
    | error e => simp [hp1] at h1
    | ok x1 =>
      simp only [hp1, Except.ok.injEq] at h1
      cases hd2 : (removeConfPfx k2).bind tableLookup with
      | none =>
        simp only [hd2, Except.ok.injEq] at h2
        rw [← h1, ← h2]
        rfl
      | some s2 =>
        simp only [hd2] at h2
        cases hp2 : slotParse s2 v2 with
        | error e => simp [hp2] at h2
        | ok x2 =>
          simp only [hp2, Except.ok.injEq] at h2
          rw [← h1, ← h2]
          exact slotWrite_comm f s1 s2 (dispatch_inj k1 k2 hne s1 s2 hd1 hd2) x1 x2

/-- `dcSet` with the returned recognition flag dropped (the step used by
`applySets`). -/
def dcSetD (s : DBState) (p : String × String) : Except Unit DBState :=
  match dcSet s p.1 p.2 with
  | .error e => .error e
  | .ok q => .ok q.2

theorem applySets_cons (s : DBState) (p : String × String) (t : List (String × String)) :
    applySets s (p :: t) =
      match dcSetD s p with
      | .error e => .error e
      | .ok s1 => applySets s1 t := by
  simp only [applySets, dcSetD]
  cases h : dcSet s p.1 p.2 with
  | error e => rfl
  | ok q => rfl

theorem dcSetD_ok (s : DBState) (p : String × String) (s1 : DBState)
    (h : dcSetD s p = Except.ok s1) : ∃ b, dcSet s p.1 p.2 = Except.ok (b, s1) := by
  rw [dcSetD] at h
  cases hs : dcSet s p.1 p.2 with
  | error e => rw [hs] at h; exact absurd h (by simp)
  | ok q =>
    rw [hs] at h
    simp only [Except.ok.injEq] at h
    exact ⟨q.1, congrArg Except.ok (Prod.ext rfl h)⟩

theorem makeMutable_idem (s : DBState) :
    makeConfigurationMutable (makeConfigurationMutable s) = makeConfigurationMutable s := by
  cases h : s.mutableConfiguration <;> simp [makeConfigurationMutable, h]

theorem dcSet_makeMutable (s : DBState) (k v : String) :
    dcSet s k v = dcSet (makeConfigurationMutable s) k v := by
  simp only [dcSet, makeMutable_idem]

theorem dcSetD_of_some (kn : Knobs) (f : ConfigFields) (raw m : List (String × String))
    (p : String × String) :
    dcSetD ⟨kn, f, raw, some m⟩ p =
      match parseEffect p.1 p.2 with
      | .error e => .error e
      | .ok g => .ok ⟨kn, g f, raw, some (mapInsert m p.1 p.2)⟩ := by
  rw [dcSetD, parseEffect]
  have hset : dcSet (⟨kn, f, raw, some m⟩ : DBState) p.1 p.2 =
      match setInternal f p.1 p.2 with
      | .error e => .error e
      | .ok (b, f') => .ok (b, ⟨kn, f', raw, some (mapInsert m p.1 p.2)⟩) := rfl
  rw [hset, setInternal_char]
  cases hd : (removeConfPfx p.1).bind tableLookup with
  | none => rfl
  | some slot =>
    dsimp only
    cases hp : slotParse slot p.2 with
    | error e => rfl
    | ok x => rfl

theorem dcSetD_comm_core (kn : Knobs) (f : ConfigFields)
    (raw m : List (String × String)) (hm : List.Pairwise keyLt m)
    (p q : String × String) (hne : p.1 ≠ q.1) :
    (match dcSetD ⟨kn, f, raw, some m⟩ p with
     | .error e => Except.error e
     | .ok s1 => dcSetD s1 q) =
    (match dcSetD ⟨kn, f, raw, some m⟩ q with
     | .error e => Except.error e
     | .ok s1 => dcSetD s1 p) := by
  rw [dcSetD_of_some kn f raw m p, dcSetD_of_some kn f raw m q]
  cases hp : parseEffect p.1 p.2 with
  | error e =>
    cases hq : parseEffect q.1 q.2 with
    | error e2 => cases e; cases e2; rfl
    | ok g2 =>
      dsimp only
      rw [dcSetD_of_some, hp]
  | ok g1 =>
    cases hq : parseEffect q.1 q.2 with
    | error e =>
      dsimp only
      rw [dcSetD_of_some, hq]
    | ok g2 =>
      dsimp only
      rw [dcSetD_of_some, dcSetD_of_some, hp, hq]
      dsimp only
      rw [parseEffect_comm p.1 p.2 q.1 q.2 hne g1 g2 hp hq f,
        mapInsert_comm m p.1 p.2 q.1 q.2 hm hne]

theorem dcSetD_comm (s : DBState) (p q : String × String) (hne : p.1 ≠ q.1)
    (hwf : StoreWF s = true) :
    (match dcSetD s p with
     | .error e => Except.error e
     | .ok s1 => dcSetD s1 q) =
    (match dcSetD s q with
     | .error e => Except.error e
     | .ok s1 => dcSetD s1 p) := by
  have hd : ∀ x : String × String, dcSetD s x = dcSetD (makeConfigurationMutable s) x := by
    intro x
    simp only [dcSetD]
    rw [← dcSet_makeMutable]
  rw [hd p, hd q]
  have hpw := currentOverlay_pairwise s hwf
  have hov := makeMutable_overlay s
  rcases hmk : makeConfigurationMutable s with ⟨kn, f, raw, mc⟩
  rw [hmk] at hov
  dsimp only at hov
  subst hov
  exact dcSetD_comm_core kn f raw (currentOverlay s) hpw p q hne

theorem applySets_perm : ∀ {l1 l2 : List (String × String)}, l1.Perm l2 →
    l1.Pairwise (fun a b => a.1 ≠ b.1) → ∀ s : DBState, StoreWF s = true →
    applySets s l1 = applySets s l2 := by
  intro l1 l2 hperm
  induction hperm with
  | nil =>
    intro _ s _
    rfl
  | cons x hp ih =>
    intro hpw s hwf
    rw [applySets_cons, applySets_cons]
    cases hset : dcSetD s x with
    | error e => rfl
    | ok s1 =>
      obtain ⟨b, hb⟩ := dcSetD_ok s x s1 hset
      exact ih (List.pairwise_cons.mp hpw).2 s1 (dcSet_StoreWF s x.1 x.2 b s1 hwf hb)
  | swap x y l =>
    intro hpw s hwf
    have hne : y.1 ≠ x.1 := (List.pairwise_cons.mp hpw).1 x (List.mem_cons_self x l)
    have hcomm := dcSetD_comm s y x hne hwf
    rw [applySets_cons, applySets_cons]
    cases hY : dcSetD s y with
    | error e =>
      simp only [hY] at hcomm
      cases hX : dcSetD s x with
      | error e2 => cases e; cases e2; rfl
      | ok sx =>
        simp only [hX] at hcomm
        dsimp only
        rw [applySets_cons, ← hcomm]
    | ok sy =>
      simp only [hY] at hcomm
      cases hX : dcSetD s x with
      | error e =>
        simp only [hX] at hcomm
        dsimp only
        rw [applySets_cons, hcomm]
      | ok sx =>
        simp only [hX] at hcomm
        dsimp only
        rw [applySets_cons, applySets_cons, hcomm]
  | trans h1 h2 ih1 ih2 =>
    intro hpw s hwf
    rw [ih1 hpw s hwf,
      ih2 ((h1.pairwise_iff (fun hab => Ne.symm hab)).mp hpw) s hwf]

/-! ### Rendering of the canonical map -/

theorem strData_append (a b : String) : (a ++ b).data = a.data ++ b.data := rfl

theorem strEmpty_append (y : String) : "" ++ y = y := by
  cases y
  rfl

theorem foldl_render_ne : ∀ (m : List (String × String)), m ≠ [] → ∀ acc : String,
    m.foldl (fun acc p => acc ++ p.1 ++ "=" ++ p.2 ++ ";") acc =
      acc ++ (specRender m ++ ";") := by
  intro m
  induction m with
  | nil => intro h; exact absurd rfl h
  | cons p t ih =>
    intro _ acc
    rw [List.foldl_cons]
    cases t with
    | nil =>
      rw [List.foldl_nil]
      apply strEq_of_data
      simp [strData_append, specRender, List.append_assoc]
    | cons q t' =>
      rw [ih (by simp) (acc ++ p.1 ++ "=" ++ p.2 ++ ";")]
      apply strEq_of_data
      simp [strData_append, specRender, List.append_assoc]

theorem chopLast_semi (x : String) : chopLast (x ++ ";") = x := by
  have h1 : (x ++ ";").data = x.data ++ [';'] := rfl
  rw [chopLast, h1, List.length_append]
  simp only [List.length_singleton, Nat.add_sub_cancel]
  rw [List.take_left]

theorem toMap_pairwise (c : ConfigFields) (m : List (String × String))
    (h : toMap c = some m) : List.Pairwise keyLt m := by
  rw [toMap] at h
  by_cases hinit : c.initialized = true
  · rw [if_pos hinit] at h
    cases ht : c.tLogPolicy with
    | none =>
      cases hs : c.storagePolicy <;> rw [ht, hs] at h <;> simp at h
    | some tp =>
      cases hs : c.storagePolicy with
      | none => rw [ht, hs] at h; simp at h
      | some sp =>
        rw [ht, hs] at h
        simp only [Option.some.injEq] at h
        rw [← h]
        exact materialize_pairwise _
  · rw [if_neg hinit] at h
    simp only [Option.some.injEq] at h
    rw [← h]
    exact List.Pairwise.nil

theorem configToString_specRender (c : ConfigFields) (m : List (String × String))
    (h : toMap c = some m) : configToString c = some (specRender m) := by
  rw [configToString, h]
  simp only [Option.map_some']
  cases m with
  | nil => rfl
  | cons p t =>
    congr 1
    rw [foldl_render_ne (p :: t) (by simp) "", strEmpty_append]
    exact chopLast_semi _

/-- C8: the display string renders the canonical map as `key=value` pairs
joined by `;` with no trailing separator, the map being in strictly
ascending key order; consequently two configurations populated by the same
distinct-key edit set in different orders produce byte-identical display
strings. -/
theorem c8_display_deterministic :
    (∀ (c : ConfigFields) (m : List (String × String)), toMap c = some m →
      configToString c = some (specRender m) ∧ List.Pairwise keyLt m) ∧
    (∀ (s s1 s2 : DBState) (l1 l2 : List (String × String)),
      l1.Perm l2 → l1.Pairwise (fun a b => a.1 ≠ b.1) → StoreWF s = true →
      applySets s l1 = Except.ok s1 → applySets s l2 = Except.ok s2 →
      configToString s1.fields = configToString s2.fields) := by
  constructor
  · intro c m h
    exact ⟨configToString_specRender c m h, toMap_pairwise c m h⟩
  · intro s s1 s2 l1 l2 hperm hpw hwf h1 h2
    have hap := applySets_perm hperm hpw s hwf
    rw [h1, h2] at hap
    simp only [Except.ok.injEq] at hap
    rw [hap]

/-- An initialized configuration for the C8 witness. -/
def c8Ex : ConfigFields :=
  { resetInternal ⟨3, 1, 3⟩ with
    initialized := true
    tLogPolicy := some RepPolicy.policyOne
    storagePolicy := some RepPolicy.policyOne }

/-- Its canonical map. -/
def c8ExMap : List (String × String) :=
  [("redundancy_mode", "custom"), ("remote_redundancy_mode", "none"),
   ("satellite_redundancy_mode", "none"), ("storage_engine", "custom")]

/-- The state both insertion orders of the C8 witness reach. -/
def c8FinalState : DBState :=
  ⟨⟨3, 1, 3⟩,
   { resetInternal ⟨3, 1, 3⟩ with desiredTLogCount := 3, masterProxyCount := 4 },
   [],
   some [(configKeysPfx ++ "logs", "3"), (configKeysPfx ++ "proxies", "4")]⟩

theorem c8_display_deterministic_witness :
    (configToString c8Ex = some (specRender c8ExMap) ∧ List.Pairwise keyLt c8ExMap) ∧
    configToString c8FinalState.fields = configToString c8FinalState.fields :=
  ⟨c8_display_deterministic.1 c8Ex c8ExMap rfl,
   c8_display_deterministic.2 (initState ⟨3, 1, 3⟩) c8FinalState c8FinalState
     [(configKeysPfx ++ "logs", "3"), (configKeysPfx ++ "proxies", "4")]
     [(configKeysPfx ++ "proxies", "4"), (configKeysPfx ++ "logs", "3")]
     (List.Perm.swap (configKeysPfx ++ "proxies", "4") (configKeysPfx ++ "logs", "3") [])
     (by decide) rfl rfl rfl⟩
